import Mathlib

/-!
# VeeR-ISS virtual memory: the page-table walker of `VirtMem.cpp`

A shallow embedding of `VirtMem::translate` and of the template
`VirtMem::translate_<PTE, VA>`, followed by the properties of the walker.

* Machine integers are natural numbers; a value stored in a C++ variable of
  width `w` is reduced modulo `2 ^ w` where the source declares that variable.
* The template parameters `PTE` and `VA` are declared in `VirtMem.hpp`; the
  members the walker calls on them are the fields of `Layout`.
* `Memory::read` is an external collaborator: a map from byte address to the
  word found there (`none` when `read` returns `false`).
* Reading memory is an effect; the embedding logs every call of
  `memory_.read` in the order in which the walker issues it.
-/

namespace WdRiscv

/-- Privilege mode, `enum class PrivilegeMode` of `trapEnums.hpp`. -/
inductive PrivilegeMode where
  | User
  | Reserved
  | Supervisor
  | Machine
  deriving DecidableEq, Repr

/-- Translation mode selected in `VirtMem::translate` (`mode_`). -/
inductive Mode where
  | Bare
  | Sv32
  | Sv39
  | Sv48
  deriving DecidableEq, Repr

/-- The members of the template parameters `PTE` and `VA` that
`translate_` calls. A page-table entry is its raw word `data_`, a virtual
address is the raw address; every accessor is a function of that word.
`dataBits` is the width of `PTE::data_`, the word filled by `Memory::read`.
`vpnWidth` and `ppnWidth` are the widths in bits of the types in which
`va.vpn(i) << ...` (line 122) and `pte.ppn(i) << ...` (line 125) are
evaluated, that is of the promoted return types of `VA::vpn(int)` and
`PTE::ppn(int)`; `VirtMem.cpp` does not fix them. -/
structure Layout where
  levels : Nat
  size : Nat
  dataBits : Nat
  valid : Nat → Bool
  read : Nat → Bool
  write : Nat → Bool
  exec : Nat → Bool
  user : Nat → Bool
  accessed : Nat → Bool
  dirty : Nat → Bool
  ppn : Nat → Nat
  ppn0 : Nat → Nat
  ppn1 : Nat → Nat
  ppnAt : Nat → Nat → Nat
  paPpnShift : Nat → Nat
  vpn : Nat → Nat → Nat
  offset : Nat → Nat
  vpnWidth : Nat
  ppnWidth : Nat

/-- Physical memory as seen through `Memory::read(addr, word)`: `some word`
when the call returns `true`, `none` when it returns `false`. -/
abbrev Memory := Nat → Option Nat

/-- The data members of `VirtMem`. -/
structure VirtMem where
  memory : Memory
  mode : Mode
  pageSize : Nat
  pageBits : Nat
  pageTableRoot : Nat
  supervisorOk : Bool
  execReadable : Bool

/-- One call of `memory_.read(pteAddr, pte.data_)`: the walker level `ii` at
which it was issued, the address, and the word obtained (`none` when the
reader reported failure). -/
structure Fetch where
  level : Nat
  addr : Nat
  data : Option Nat
  deriving DecidableEq, Repr

/-- What a call of `translate` leaves behind: the returned flag, the value of
the reference parameter `pa` after the call, and the log of memory reads. -/
structure Outcome where
  ok : Bool
  pa : Nat
  fetches : List Fetch
  deriving DecidableEq, Repr

/-- How the `while (true)` loop of `translate_` is left: by one of its
`return false` statements, or by `break` with the leaf entry in `pte` and its
level in `ii`. -/
inductive Walk where
  | fault (fetches : List Fetch)
  | leaf (ii : Nat) (pte : Nat) (fetches : List Fetch)
  deriving DecidableEq, Repr

/-- Bit `k` of a word. -/
def bit (w k : Nat) : Bool := w.testBit k

/-- Bits `lo .. lo + n - 1` of a word. -/
def field (w lo n : Nat) : Nat := (w >>> lo) % 2 ^ n

/-- Modelled from the spec: `Pte32` and `Va32` of `VirtMem.hpp` (not under
`src/`). Two levels, 4-byte entries, index width 10, status bits
`V R W X U G A D` in bits 0 to 7, PPN slices `ppn0` (10 bits) and `ppn1`
(12 bits) from bit 10 of the entry, 12-bit page offset; slice `i` is placed
at bit `12 + 10 * i` of the physical address. The specification splices
indices and slices into the 64-bit `pa` (section 4.3 step 7, section 6), so
`vpn(i)` and `ppn(i)` are modelled as returning 64-bit values; the header
alone tells whether the code shifts them in 64 or in 32 bits. -/
def Sv32Layout : Layout where
  levels := 2
  size := 4
  dataBits := 32
  valid := fun w => bit w 0
  read := fun w => bit w 1
  write := fun w => bit w 2
  exec := fun w => bit w 3
  user := fun w => bit w 4
  accessed := fun w => bit w 6
  dirty := fun w => bit w 7
  ppn := fun w => field w 10 22
  ppn0 := fun w => field w 10 10
  ppn1 := fun w => field w 20 12
  ppnAt := fun w i => if i = 0 then field w 10 10 else field w 20 12
  paPpnShift := fun i => 12 + 10 * i
  vpn := fun va i => field va (12 + 10 * i) 10
  offset := fun va => field va 0 12
  vpnWidth := 64
  ppnWidth := 64

/-- Modelled from the spec: `Pte39` and `Va39` of `VirtMem.hpp` (not under
`src/`). Three levels, 8-byte entries, index width 9, status bits in bits 0
to 7, PPN slices `ppn0`, `ppn1` (9 bits each) and `ppn2` (26 bits) from bit
10 of the entry, 12-bit page offset; slice `i` is placed at bit `12 + 9 * i`
of the physical address. The specification splices indices and slices into
the 64-bit `pa` (section 4.3 step 7, section 6), so `vpn(i)` and `ppn(i)` are
modelled as returning 64-bit values; the header alone tells whether the code
shifts them in 64 or in 32 bits. -/
def Sv39Layout : Layout where
  levels := 3
  size := 8
  dataBits := 64
  valid := fun w => bit w 0
  read := fun w => bit w 1
  write := fun w => bit w 2
  exec := fun w => bit w 3
  user := fun w => bit w 4
  accessed := fun w => bit w 6
  dirty := fun w => bit w 7
  ppn := fun w => field w 10 44
  ppn0 := fun w => field w 10 9
  ppn1 := fun w => field w 19 9
  ppnAt := fun w i =>
    if i = 0 then field w 10 9 else if i = 1 then field w 19 9 else field w 28 26
  paPpnShift := fun i => 12 + 9 * i
  vpn := fun va i => field va (12 + 9 * i) 9
  offset := fun va => field va 0 12
  vpnWidth := 64
  ppnWidth := 64

/-- Modelled from the spec: `Pte48` and `Va48` of `VirtMem.hpp` (not under
`src/`). Four levels, 8-byte entries, index width 9, status bits in bits 0 to
7, PPN slices `ppn0`, `ppn1`, `ppn2` (9 bits each) and `ppn3` (17 bits) from
bit 10 of the entry, 12-bit page offset; slice `i` is placed at bit
`12 + 9 * i` of the physical address. The specification splices indices and
slices into the 64-bit `pa` (section 4.3 step 7, section 6), so `vpn(i)` and
`ppn(i)` are modelled as returning 64-bit values; the header alone tells
whether the code shifts them in 64 or in 32 bits. -/
def Sv48Layout : Layout where
  levels := 4
  size := 8
  dataBits := 64
  valid := fun w => bit w 0
  read := fun w => bit w 1
  write := fun w => bit w 2
  exec := fun w => bit w 3
  user := fun w => bit w 4
  accessed := fun w => bit w 6
  dirty := fun w => bit w 7
  ppn := fun w => field w 10 44
  ppn0 := fun w => field w 10 9
  ppn1 := fun w => field w 19 9
  ppnAt := fun w i =>
    if i = 0 then field w 10 9 else if i = 1 then field w 19 9
    else if i = 2 then field w 28 9 else field w 37 17
  paPpnShift := fun i => 12 + 9 * i
  vpn := fun va i => field va (12 + 9 * i) 9
  offset := fun va => field va 0 12
  vpnWidth := 64
  ppnWidth := 64

/-- Lines 66 and 67 of `translate_`: `uint32_t vpn = va.vpn(ii)` and
`uint64_t pteAddr = root + vpn*pteSize`. The product of the `uint32_t` index
and the `unsigned` entry size is a 32-bit value; the sum is a `uint64_t`. -/
def pteAddr (L : Layout) (va ii root : Nat) : Nat :=
  (root + (L.vpn va ii % 2 ^ 32) * (L.size % 2 ^ 32) % 2 ^ 32) % 2 ^ 64

/-- The `while (true)` loop of `translate_` (steps 3 to 5), entered with
level `ii` and table base `root`, `log` being the reads issued so far.

* `memory_.read` fills `pte.data_`, whose width is `dataBits`;
* `ii = ii - 1; if (ii < 0) return false` is the case `ii = 0` here;
* `root = pte.ppn()` is stored in a `uint64_t`. -/
def walk (L : Layout) (mem : Memory) (va : Nat) : Nat → Nat → List Fetch → Walk
  | ii, root, log =>
    match mem (pteAddr L va ii root) with
    | none => Walk.fault (log ++ [⟨ii, pteAddr L va ii root, none⟩])
    | some w =>
      let pte := w % 2 ^ L.dataBits
      let log1 := log ++ [⟨ii, pteAddr L va ii root, some pte⟩]
      if !L.valid pte || (!L.read pte && L.write pte) then Walk.fault log1
      else if !L.read pte && !L.exec pte then
        match ii with
        | 0 => Walk.fault log1
        | k + 1 => walk L mem va k (L.ppn pte % 2 ^ 64) log1
      else Walk.leaf ii pte log1

/-- Step 9 of `translate_`: the two `for` loops that build `pa`, a `size_t`,
for a leaf `pte` found at level `ii`. The first runs `i = ii-1, ..., 0` over
the virtual page numbers, the second `i = levels-1, ..., ii` over the PPN
slices of the entry. Each shift is evaluated in the type of its left operand,
of width `vpnWidth` or `ppnWidth`, before it is OR-ed into the 64-bit `pa`. -/
def composePa (L : Layout) (va pte ii : Nat) : Nat :=
  let pa0 := L.offset va % 2 ^ 64
  let pa1 :=
    if ii > 0 then
      (List.range ii).reverse.foldl
        (fun pa i => (pa ||| ((L.vpn va i <<< L.paPpnShift i) % 2 ^ L.vpnWidth)) % 2 ^ 64) pa0
    else pa0
  (List.range' ii (L.levels - ii)).reverse.foldl
    (fun pa i => (pa ||| ((L.ppnAt pte i <<< L.paPpnShift i) % 2 ^ L.ppnWidth)) % 2 ^ 64) pa1

/-- Steps 6 to 9 of `translate_`: the checks on the leaf entry `pte` found at
level `ii`, in source order; `none` is `return false`, `some pa` is
`return true` with the composed address. -/
def leafChecks (L : Layout) (vm : VirtMem) (va : Nat) (privMode : PrivilegeMode)
    (read write exec : Bool) (ii pte : Nat) : Option Nat :=
  if decide (privMode = PrivilegeMode.User) && !L.user pte then none
  else if decide (privMode = PrivilegeMode.Supervisor) && L.user pte && !vm.supervisorOk then none
  else
    let pteRead := L.read pte || (vm.execReadable && L.exec pte)
    if (read && !pteRead) || (write && !L.write pte) || (exec && L.exec pte) then none
    else if decide (ii > 0) && decide (L.ppn1 pte ≠ 0) && decide (L.ppn0 pte ≠ 0) then none
    else if !L.accessed pte || (write && !L.dirty pte) then none
    else some (composePa L va pte ii)

/-- The template `VirtMem::translate_<PTE, VA>`, instantiated at the layout
`L`. `pa` is the value of the reference parameter on entry; it is assigned
only on the path that returns `true`. -/
def translate_ (L : Layout) (vm : VirtMem) (address : Nat) (privMode : PrivilegeMode)
    (read write exec : Bool) (pa : Nat) : Outcome :=
  match walk L vm.memory address (L.levels - 1) (vm.pageTableRoot % 2 ^ 64) [] with
  | Walk.fault log => ⟨false, pa, log⟩
  | Walk.leaf ii pte log =>
    match leafChecks L vm address privMode read write exec ii pte with
    | none => ⟨false, pa, log⟩
    | some newPa => ⟨true, newPa, log⟩

/-- `VirtMem::translate`: identity in `Bare` mode, otherwise the walker at
the layout of the mode. `mode_` has no fifth value, so the closing
`assert(0)` is not reached. `size_t` is taken to be 64 bits wide. -/
def translate (vm : VirtMem) (va : Nat) (pm : PrivilegeMode)
    (read write exec : Bool) (pa : Nat) : Outcome :=
  match vm.mode with
  | Mode.Bare => ⟨true, va, []⟩
  | Mode.Sv32 => translate_ Sv32Layout vm va pm read write exec pa
  | Mode.Sv39 => translate_ Sv39Layout vm va pm read write exec pa
  | Mode.Sv48 => translate_ Sv48Layout vm va pm read write exec pa

/-- The reads logged by the loop. -/
def Walk.fetches : Walk → List Fetch
  | Walk.fault log => log
  | Walk.leaf _ _ log => log

/-- The leaf the loop of `translate_` stops at, as level and entry, when the
loop is left by `break`; `none` when it is left by `return false`. -/
def leafReached (L : Layout) (vm : VirtMem) (va : Nat) : Option (Nat × Nat) :=
  match walk L vm.memory va (L.levels - 1) (vm.pageTableRoot % 2 ^ 64) [] with
  | Walk.fault _ => none
  | Walk.leaf ii pte _ => some (ii, pte)

/-- How the last read of a walk relates to the way the loop was left: a
`return false` follows a failed read, an invalid or reserved entry, or a
pointer at level 0; a `break` follows a valid, non-reserved entry with
`R` or `X` set. -/
def WalkEnd (L : Layout) (last : Fetch) : Walk → Prop
  | Walk.fault _ =>
    last.data = none ∨
      ∃ pte, last.data = some pte ∧
        (L.valid pte = false ∨ (L.read pte = false ∧ L.write pte = true) ∨
          (L.read pte = false ∧ L.exec pte = false ∧ last.level = 0))
  | Walk.leaf ii pte _ =>
    last.level = ii ∧ last.data = some pte ∧ L.valid pte = true ∧
      (L.read pte = true ∨ L.write pte = false) ∧ (L.read pte = true ∨ L.exec pte = true)

/-- A memory in which every read succeeds: the listed addresses hold the
listed words, every other address holds zero. -/
def tableMemory (entries : List (Nat × Nat)) : Memory :=
  fun a => some ((entries.lookup a).getD 0)

/-- A memory in which every read fails. -/
def busFaultMemory : Memory := fun _ => none

/-- A pointer entry: `V = 1`, `R = W = X = 0`, PPN from bit 10. -/
def ptePointer (ppn : Nat) : Nat := (ppn <<< 10) ||| 0x01

/-- An entry with the given PPN and status bits
(`V = 0x01, R = 0x02, W = 0x04, X = 0x08, U = 0x10, A = 0x40, D = 0x80`). -/
def pteWord (ppn flags : Nat) : Nat := (ppn <<< 10) ||| flags

/-- The tables of scenario 2 laid out as the specification says, each table
at byte address `PPN * pageSize`: level-2 slot 0 points to PPN `0x101`,
level-1 slot 1 points to PPN `0x102`, level-0 slot 1 is the leaf with PPN
`0x55555` and `V = R = U = A = 1`. -/
def scaledTables : Memory :=
  tableMemory [(0x100 * 4096 + 0 * 8, ptePointer 0x101),
    (0x101 * 4096 + 1 * 8, ptePointer 0x102),
    (0x102 * 4096 + 1 * 8, pteWord 0x55555 0x53)]

/-- Three entries at the addresses the walker of `VirtMem.cpp` computes for
`va = 0x201abc`, with the table base equal to the PPN itself: a pointer to
PPN `0x101` at `0x100 + 0 * 8`, then `e1` at `0x101 + 1 * 8` and `e0` at
`0x102 + 1 * 8`. -/
def unscaledTables (e1 e0 : Nat) : Memory :=
  tableMemory [(0x100 + 0 * 8, ptePointer 0x101), (0x101 + 1 * 8, e1), (0x102 + 1 * 8, e0)]

/-- Three 8-byte entries that do not overlap, at the addresses the walker of
`VirtMem.cpp` computes for `va = 0x201abc` when the pointers name the pages
`0x200` and `0x300`: a pointer to PPN `0x200` at `0x100 + 0 * 8`, a pointer to
PPN `0x300` at `0x200 + 1 * 8`, and `e0` at `0x300 + 1 * 8`. -/
def disjointTables (e0 : Nat) : Memory :=
  tableMemory [(0x100 + 0 * 8, ptePointer 0x200), (0x200 + 1 * 8, ptePointer 0x300),
    (0x300 + 1 * 8, e0)]

/-- An Sv39 translator with 4 KiB pages and root `0x100` over the given
memory; `execReadable` is off. -/
def sv39Vm (mem : Memory) (supervisorOk : Bool) : VirtMem :=
  ⟨mem, Mode.Sv39, 4096, 12, 0x100, supervisorOk, false⟩

/-- An Sv48 translator with 4 KiB pages and root `0x100` over the given
memory; both flags are off. -/
def sv48Vm (mem : Memory) : VirtMem :=
  ⟨mem, Mode.Sv48, 4096, 12, 0x100, false, false⟩

/-- A translator in `Bare` mode over a memory that cannot be read. -/
def bareVm : VirtMem := ⟨busFaultMemory, Mode.Bare, 4096, 12, 0, false, false⟩

/-! ### Definitions for the leaf checks, the constructor and the comparisons of runs -/

/-- The leaf checks of steps 6 to 8 as one flag: `true` when none of the five
guards of `leafChecks` returns `false`. -/
def leafOk (L : Layout) (vm : VirtMem) (privMode : PrivilegeMode) (read write exec : Bool)
    (ii pte : Nat) : Bool :=
  !(decide (privMode = PrivilegeMode.User) && !L.user pte) &&
  !(decide (privMode = PrivilegeMode.Supervisor) && L.user pte && !vm.supervisorOk) &&
  !((read && !(L.read pte || (vm.execReadable && L.exec pte))) || (write && !L.write pte) ||
    (exec && L.exec pte)) &&
  !(decide (ii > 0) && decide (L.ppn1 pte ≠ 0) && decide (L.ppn0 pte ≠ 0)) &&
  !(!L.accessed pte || (write && !L.dirty pte))

/-- Modelled from the spec: the setter `setSupervisorOk` of `VirtMem.hpp` (not
under `src/`), which changes the flag `supervisorOk_` and nothing else. -/
def VirtMem.setSupervisorOk (vm : VirtMem) (flag : Bool) : VirtMem :=
  { vm with supervisorOk := flag }

/-- Modelled from the spec: the setter `setExecReadable` of `VirtMem.hpp` (not
under `src/`), which changes the flag `execReadable_` and nothing else. -/
def VirtMem.setExecReadable (vm : VirtMem) (flag : Bool) : VirtMem :=
  { vm with execReadable := flag }

/-- Modelled from the spec: the number of significant bits of a virtual
address in each mode (section 3: 32 for Sv32, 39 for Sv39, 48 for Sv48). In
`Bare` mode the whole 64-bit address is significant. -/
def vaBits : Mode → Nat
  | Mode.Bare => 64
  | Mode.Sv32 => 32
  | Mode.Sv39 => 39
  | Mode.Sv48 => 48

/-- The integer part of the binary logarithm, by repeated halving; `fuel`
bounds the number of halvings. -/
def log2Loop : Nat → Nat → Nat
  | 0, _ => 0
  | fuel + 1, n => if n ≥ 2 then log2Loop fuel (n / 2) + 1 else 0

/-- The value of `static_cast<unsigned>(std::log2(x))` for an `unsigned`
`x ≥ 1`: the integer part of the binary logarithm. `std::log2` returns a
`double`; on 32-bit arguments its result is an integer exactly for the
powers of two and lies more than `2^-33` below the next integer otherwise,
so the cast yields the integer part. -/
def log2Floor (x : Nat) : Nat := log2Loop x x

/-- The constructor `VirtMem::VirtMem(memory, pageSize)`; `pageSize` is an
`unsigned`. The result is `none` when one of the two assertions fails. The
initialiser list sets `memory_`, `mode_` and `pageSize_`, the body sets
`pageBits_`; the members it does not mention keep the values `VirtMem.hpp`
declares for them, taken here as the arguments `pageTableRoot`,
`supervisorOk` and `execReadable`. -/
def VirtMem.construct (memory : Memory) (pageSize : Nat) (pageTableRoot : Nat)
    (supervisorOk execReadable : Bool) : Option VirtMem :=
  let pageBits := log2Floor pageSize % 2 ^ 32
  let p2PageSize := (1 <<< pageBits) % 2 ^ 32
  if p2PageSize = pageSize then
    if pageSize > 1024 then
      some ⟨memory, Mode.Sv32, pageSize, pageBits, pageTableRoot, supervisorOk, execReadable⟩
    else none
  else none

/-- The translator over a memory that holds `word` at address `a` and is
otherwise the memory of `vm`. -/
def VirtMem.withWord (vm : VirtMem) (a word : Nat) : VirtMem :=
  { vm with memory := fun b => if b = a then some word else vm.memory b }

/-- Two entries that agree on everything the walker asks of a leaf except
the `U` bit: `V`, `R`, `W`, `X`, `A`, `D`, `ppn0`, `ppn1` and the PPN slice
of every level. -/
def SameButUser (L : Layout) (p q : Nat) : Prop :=
  L.valid p = L.valid q ∧ L.read p = L.read q ∧ L.write p = L.write q ∧
    L.exec p = L.exec q ∧ L.accessed p = L.accessed q ∧ L.dirty p = L.dirty q ∧
    L.ppn0 p = L.ppn0 q ∧ L.ppn1 p = L.ppn1 q ∧
    ∀ i < L.levels, L.ppnAt p i = L.ppnAt q i

/-! # Properties -/

/-! ## The loop of `translate_` -/

theorem walk_unfold (L : Layout) (mem : Memory) (va ii root : Nat) (log : List Fetch) :
    walk L mem va ii root log =
      (match mem (pteAddr L va ii root) with
      | none => Walk.fault (log ++ [⟨ii, pteAddr L va ii root, none⟩])
      | some w =>
        if !L.valid (w % 2 ^ L.dataBits) ||
            (!L.read (w % 2 ^ L.dataBits) && L.write (w % 2 ^ L.dataBits)) then
          Walk.fault (log ++ [⟨ii, pteAddr L va ii root, some (w % 2 ^ L.dataBits)⟩])
        else if !L.read (w % 2 ^ L.dataBits) && !L.exec (w % 2 ^ L.dataBits) then
          match ii with
          | 0 => Walk.fault (log ++ [⟨ii, pteAddr L va ii root, some (w % 2 ^ L.dataBits)⟩])
          | k + 1 =>
            walk L mem va k (L.ppn (w % 2 ^ L.dataBits) % 2 ^ 64)
              (log ++ [⟨ii, pteAddr L va ii root, some (w % 2 ^ L.dataBits)⟩])
        else Walk.leaf ii (w % 2 ^ L.dataBits)
          (log ++ [⟨ii, pteAddr L va ii root, some (w % 2 ^ L.dataBits)⟩])) := by
  cases ii <;> rw [walk]

/-- Shape of the read log of the loop: the reads issued before it, then a run
of valid pointer entries, then one last read that decides how the loop ends. -/
theorem walk_trace (L : Layout) (mem : Memory) (va : Nat) :
    ∀ (ii root : Nat) (log : List Fetch), ∃ ptrs last,
      (walk L mem va ii root log).fetches = log ++ ptrs ++ [last] ∧
      (∀ f ∈ ptrs, ∃ pte, f.data = some pte ∧ L.valid pte = true ∧ L.read pte = false ∧
        L.write pte = false ∧ L.exec pte = false) ∧
      ptrs.length + last.level = ii ∧
      WalkEnd L last (walk L mem va ii root log) := by
  intro ii
  induction ii with
  | zero =>
    intro root log
    rw [walk_unfold]
    cases hm : mem (pteAddr L va 0 root) with
    | none =>
      exact ⟨[], ⟨0, pteAddr L va 0 root, none⟩, by simp [Walk.fetches], by simp, by simp,
        Or.inl rfl⟩
    | some w =>
      refine ⟨[], ⟨0, pteAddr L va 0 root, some (w % 2 ^ L.dataBits)⟩, ?_, by simp, by simp, ?_⟩
      · simp only []
        split_ifs <;> simp [Walk.fetches]
      · simp only []
        split_ifs with h1 h2
        · refine Or.inr ⟨_, rfl, ?_⟩
          simp at h1
          rcases h1 with h1 | h1
          · exact Or.inl h1
          · exact Or.inr (Or.inl h1)
        · simp at h2
          exact Or.inr ⟨_, rfl, Or.inr (Or.inr ⟨h2.1, h2.2, rfl⟩)⟩
        · simp at h1 h2
          refine ⟨rfl, rfl, h1.1, ?_, ?_⟩
          · cases hr : L.read (w % 2 ^ L.dataBits)
            · exact Or.inr (by simpa using h1.2 hr)
            · exact Or.inl rfl
          · cases hr : L.read (w % 2 ^ L.dataBits)
            · exact Or.inr (h2 hr)
            · exact Or.inl rfl
  | succ k ih =>
    intro root log
    rw [walk_unfold]
    cases hm : mem (pteAddr L va (k + 1) root) with
    | none =>
      exact ⟨[], ⟨k + 1, pteAddr L va (k + 1) root, none⟩, by simp [Walk.fetches], by simp,
        by simp, Or.inl rfl⟩
    | some w =>
      simp only []
      split_ifs with h1 h2
      · refine ⟨[], ⟨k + 1, pteAddr L va (k + 1) root, some (w % 2 ^ L.dataBits)⟩,
          by simp [Walk.fetches], by simp, by simp, ?_⟩
        refine Or.inr ⟨_, rfl, ?_⟩
        simp at h1
        rcases h1 with h1 | h1
        · exact Or.inl h1
        · exact Or.inr (Or.inl h1)
      · obtain ⟨ptrs, last, hf, hp, hl, he⟩ := ih (L.ppn (w % 2 ^ L.dataBits) % 2 ^ 64)
          (log ++ [⟨k + 1, pteAddr L va (k + 1) root, some (w % 2 ^ L.dataBits)⟩])
        refine ⟨⟨k + 1, pteAddr L va (k + 1) root, some (w % 2 ^ L.dataBits)⟩ :: ptrs, last,
          ?_, ?_, ?_, he⟩
        · rw [hf]; simp
        · intro f hfm
          rcases List.mem_cons.1 hfm with rfl | hfm
          · simp at h1 h2
            refine ⟨_, rfl, h1.1, h2.1, ?_, h2.2⟩
            simpa using h1.2 h2.1
          · exact hp f hfm
        · simp only [List.length_cons]; omega
      · refine ⟨[], ⟨k + 1, pteAddr L va (k + 1) root, some (w % 2 ^ L.dataBits)⟩,
          by simp [Walk.fetches], by simp, by simp, ?_⟩
        simp at h1 h2
        refine ⟨rfl, rfl, h1.1, ?_, ?_⟩
        · cases hr : L.read (w % 2 ^ L.dataBits)
          · exact Or.inr (by simpa using h1.2 hr)
          · exact Or.inl rfl
        · cases hr : L.read (w % 2 ^ L.dataBits)
          · exact Or.inr (h2 hr)
          · exact Or.inl rfl

/-! ## `translate_` in terms of its loop -/

theorem translate__fetches (L : Layout) (vm : VirtMem) (va : Nat) (pm : PrivilegeMode)
    (r w x : Bool) (pa0 : Nat) :
    (translate_ L vm va pm r w x pa0).fetches =
      (walk L vm.memory va (L.levels - 1) (vm.pageTableRoot % 2 ^ 64) []).fetches := by
  unfold translate_
  split
  · next h => rw [h]; rfl
  · next h =>
    rw [h]
    split <;> rfl

theorem translate__of_fault (L : Layout) (vm : VirtMem) (va : Nat) (pm : PrivilegeMode)
    (r w x : Bool) (pa0 : Nat) (log : List Fetch)
    (h : walk L vm.memory va (L.levels - 1) (vm.pageTableRoot % 2 ^ 64) [] = Walk.fault log) :
    translate_ L vm va pm r w x pa0 = ⟨false, pa0, log⟩ := by
  unfold translate_
  rw [h]

theorem translate__of_leaf (L : Layout) (vm : VirtMem) (va : Nat) (pm : PrivilegeMode)
    (r w x : Bool) (pa0 ii pte : Nat) (log : List Fetch)
    (h : walk L vm.memory va (L.levels - 1) (vm.pageTableRoot % 2 ^ 64) [] =
      Walk.leaf ii pte log) :
    translate_ L vm va pm r w x pa0 =
      (match leafChecks L vm va pm r w x ii pte with
      | none => ⟨false, pa0, log⟩
      | some newPa => ⟨true, newPa, log⟩) := by
  unfold translate_
  rw [h]

theorem leafReached_eq_some (L : Layout) (vm : VirtMem) (va ii pte : Nat)
    (h : leafReached L vm va = some (ii, pte)) :
    ∃ log, walk L vm.memory va (L.levels - 1) (vm.pageTableRoot % 2 ^ 64) [] =
      Walk.leaf ii pte log := by
  unfold leafReached at h
  split at h
  · cases h
  · next i p log hw =>
    simp only [Option.some.injEq, Prod.mk.injEq] at h
    obtain ⟨rfl, rfl⟩ := h
    exact ⟨log, hw⟩

/-- A failed call leaves `pa` as it was. -/
theorem translate__pa_of_not_ok (L : Layout) (vm : VirtMem) (va : Nat) (pm : PrivilegeMode)
    (r w x : Bool) (pa0 : Nat) (h : (translate_ L vm va pm r w x pa0).ok = false) :
    (translate_ L vm va pm r w x pa0).pa = pa0 := by
  unfold translate_ at h ⊢
  split
  · rfl
  · next ii pte log hw =>
    rw [hw] at h
    simp only [] at h
    split
    · rfl
    · next newPa hc =>
      rw [hc] at h
      simp at h

/-- A read in the log of `translate_` that is not the last one returned a
valid pointer entry; the last one decides the outcome. -/
theorem translate__last_fetch (L : Layout) (vm : VirtMem) (va : Nat) (pm : PrivilegeMode)
    (r w x : Bool) (pa0 : Nat) (f : Fetch)
    (hf : f ∈ (translate_ L vm va pm r w x pa0).fetches)
    (hnp : ∀ pte, f.data = some pte →
      ¬ (L.valid pte = true ∧ (L.read pte = true ∨ L.write pte = false))) :
    (translate_ L vm va pm r w x pa0).ok = false ∧
      (translate_ L vm va pm r w x pa0).fetches.getLast? = some f := by
  obtain ⟨ptrs, last, hfe, hp, -, he⟩ :=
    walk_trace L vm.memory va (L.levels - 1) (vm.pageTableRoot % 2 ^ 64) []
  rw [translate__fetches] at hf ⊢
  rw [hfe] at hf ⊢
  have hlast : f = last := by
    simp only [List.nil_append, List.mem_append, List.mem_singleton] at hf
    rcases hf with hf | hf
    · obtain ⟨pte, hd, hv, _, hw, _⟩ := hp f hf
      exact absurd ⟨hv, Or.inr hw⟩ (hnp pte hd)
    · exact hf
  subst hlast
  refine ⟨?_, by simp⟩
  cases hw : walk L vm.memory va (L.levels - 1) (vm.pageTableRoot % 2 ^ 64) [] with
  | fault log => rw [translate__of_fault L vm va pm r w x pa0 log hw]
  | leaf ii pte log =>
    rw [hw] at he
    obtain ⟨-, hd, hv, hrw, -⟩ := he
    exact absurd ⟨hv, hrw⟩ (hnp pte hd)

/-- A failed call of `translate` leaves `pa` as it was. -/
theorem translate_pa_of_not_ok (vm : VirtMem) (va : Nat) (pm : PrivilegeMode)
    (r w x : Bool) (pa0 : Nat) (h : (translate vm va pm r w x pa0).ok = false) :
    (translate vm va pm r w x pa0).pa = pa0 := by
  unfold translate at h ⊢
  cases hm : vm.mode <;> rw [hm] at h <;> simp only [] at h ⊢
  · simp at h
  · exact translate__pa_of_not_ok _ vm va pm r w x pa0 h
  · exact translate__pa_of_not_ok _ vm va pm r w x pa0 h
  · exact translate__pa_of_not_ok _ vm va pm r w x pa0 h

/-! ## C1: Bare mode -/

/-- C1. In `Bare` mode, for every virtual address, privilege mode and
combination of the read/write/exec flags, `translate` returns `true` with
`pa = va`, and its read log is empty: memory is not read. -/
theorem translate_bare (vm : VirtMem) (va : Nat) (pm : PrivilegeMode) (r w x : Bool)
    (pa0 : Nat) (h : vm.mode = Mode.Bare) :
    translate vm va pm r w x pa0 = ⟨true, va, []⟩ := by
  unfold translate
  rw [h]

/-- Scenario 1 of the specification: identity in `Bare` mode, over a memory
whose every read would fail. -/
theorem translate_bare_witness :
    bareVm.mode = Mode.Bare ∧
      translate bareVm 0xDEADBEEF1234 PrivilegeMode.Machine true false false 0 =
        ⟨true, 0xDEADBEEF1234, []⟩ :=
  ⟨rfl, translate_bare bareVm 0xDEADBEEF1234 PrivilegeMode.Machine true false false 0 rfl⟩

/-! ## C7: invalid and reserved entries -/

/-- C7. In every instantiation of `translate_` (every paged mode) and for
every walk: if the entry read at some level has `V = 0`, or has `R = 0` and
`W = 1` (whatever its `X` bit), then `translate_` returns `false` and that
read is the last one in the log, so no further entry is read. -/
theorem invalid_or_reserved_pte_fails (L : Layout) (vm : VirtMem) (va : Nat)
    (pm : PrivilegeMode) (r w x : Bool) (pa0 : Nat) (f : Fetch) (pte : Nat)
    (hf : f ∈ (translate_ L vm va pm r w x pa0).fetches) (hd : f.data = some pte)
    (hbad : L.valid pte = false ∨ (L.read pte = false ∧ L.write pte = true)) :
    (translate_ L vm va pm r w x pa0).ok = false ∧
      (translate_ L vm va pm r w x pa0).fetches.getLast? = some f := by
  refine translate__last_fetch L vm va pm r w x pa0 f hf ?_
  intro p hp
  rw [hd] at hp
  cases hp
  rintro ⟨hv, hrw⟩
  rcases hbad with hb | ⟨hr, hw⟩
  · rw [hv] at hb; cases hb
  · rcases hrw with h | h
    · rw [hr] at h; cases h
    · rw [hw] at h; cases h

/-- Scenario 4 of the specification: the level-0 entry has `V = 1`, `R = 0`,
`W = 1`; the walk stops there and fails. -/
theorem invalid_or_reserved_pte_fails_witness :
    (⟨0, 0x10a, some (pteWord 0x55555 0x05)⟩ : Fetch) ∈
        (translate_ Sv39Layout
          (sv39Vm (unscaledTables (ptePointer 0x102) (pteWord 0x55555 0x05)) false)
          0x201abc PrivilegeMode.User true false false 0).fetches ∧
      (Sv39Layout.read (pteWord 0x55555 0x05) = false ∧
        Sv39Layout.write (pteWord 0x55555 0x05) = true) ∧
      (translate_ Sv39Layout
          (sv39Vm (unscaledTables (ptePointer 0x102) (pteWord 0x55555 0x05)) false)
          0x201abc PrivilegeMode.User true false false 0).ok = false ∧
      (translate_ Sv39Layout
          (sv39Vm (unscaledTables (ptePointer 0x102) (pteWord 0x55555 0x05)) false)
          0x201abc PrivilegeMode.User true false false 0).fetches.getLast? =
        some ⟨0, 0x10a, some (pteWord 0x55555 0x05)⟩ :=
  ⟨by decide, by decide,
    invalid_or_reserved_pte_fails Sv39Layout
      (sv39Vm (unscaledTables (ptePointer 0x102) (pteWord 0x55555 0x05)) false)
      0x201abc PrivilegeMode.User true false false 0
      ⟨0, 0x10a, some (pteWord 0x55555 0x05)⟩ (pteWord 0x55555 0x05)
      (by decide) rfl (Or.inr (by decide))⟩

/-! ## C8: failed reads -/

/-- C8. In every instantiation of `translate_` (every paged mode): if the
memory reader reports failure for a fetch at any level of the walk, then
`translate_` returns `false`, leaves `pa` unchanged, and that fetch is the
last read of the log. In particular, if the first fetch, at level
`levels - 1` from the root table, fails, the log consists of that single
read. -/
theorem pte_read_failure_fails (L : Layout) (vm : VirtMem) (va : Nat)
    (pm : PrivilegeMode) (r w x : Bool) (pa0 : Nat) :
    (∀ f ∈ (translate_ L vm va pm r w x pa0).fetches, f.data = none →
      (translate_ L vm va pm r w x pa0).ok = false ∧
      (translate_ L vm va pm r w x pa0).pa = pa0 ∧
      (translate_ L vm va pm r w x pa0).fetches.getLast? = some f) ∧
    (vm.memory (pteAddr L va (L.levels - 1) (vm.pageTableRoot % 2 ^ 64)) = none →
      translate_ L vm va pm r w x pa0 =
        ⟨false, pa0,
          [⟨L.levels - 1, pteAddr L va (L.levels - 1) (vm.pageTableRoot % 2 ^ 64), none⟩]⟩) := by
  constructor
  · intro f hf hd
    have h := translate__last_fetch L vm va pm r w x pa0 f hf
      (by intro p hp; rw [hd] at hp; cases hp)
    exact ⟨h.1, translate__pa_of_not_ok L vm va pm r w x pa0 h.1, h.2⟩
  · intro hm
    apply translate__of_fault
    rw [walk_unfold, hm]
    rfl

/-- Scenario 7 of the specification: the reader fails on the first fetch. -/
theorem pte_read_failure_fails_witness :
    (sv39Vm busFaultMemory false).memory
        (pteAddr Sv39Layout 0x201abc (Sv39Layout.levels - 1)
          ((sv39Vm busFaultMemory false).pageTableRoot % 2 ^ 64)) = none ∧
      translate_ Sv39Layout (sv39Vm busFaultMemory false) 0x201abc PrivilegeMode.User
          true false false 7 = ⟨false, 7, [⟨2, 0x100, none⟩]⟩ ∧
      ((translate_ Sv39Layout (sv39Vm busFaultMemory false) 0x201abc PrivilegeMode.User
          true false false 7).ok = false ∧
        (translate_ Sv39Layout (sv39Vm busFaultMemory false) 0x201abc PrivilegeMode.User
          true false false 7).pa = 7 ∧
        (translate_ Sv39Layout (sv39Vm busFaultMemory false) 0x201abc PrivilegeMode.User
          true false false 7).fetches.getLast? = some ⟨2, 0x100, none⟩) :=
  ⟨rfl,
    (pte_read_failure_fails Sv39Layout (sv39Vm busFaultMemory false) 0x201abc
      PrivilegeMode.User true false false 7).2 rfl,
    (pte_read_failure_fails Sv39Layout (sv39Vm busFaultMemory false) 0x201abc
      PrivilegeMode.User true false false 7).1 ⟨2, 0x100, none⟩ (by decide) rfl⟩

/-! ## C10: user/supervisor gating -/

/-- C10. In every instantiation of `translate_` (every paged mode) and for
every walk that reaches a leaf entry: `translate_` returns `false` when
`priv = User` and the entry has `U = 0`, and when `priv = Supervisor`, the
entry has `U = 1` and `supervisorOk` is false, whatever the intent flags and
the other bits of the entry. -/
theorem user_supervisor_gating (L : Layout) (vm : VirtMem) (va : Nat) (pm : PrivilegeMode)
    (r w x : Bool) (pa0 ii pte : Nat) (hleaf : leafReached L vm va = some (ii, pte))
    (hgate : (pm = PrivilegeMode.User ∧ L.user pte = false) ∨
      (pm = PrivilegeMode.Supervisor ∧ L.user pte = true ∧ vm.supervisorOk = false)) :
    (translate_ L vm va pm r w x pa0).ok = false := by
  obtain ⟨log, hw⟩ := leafReached_eq_some L vm va ii pte hleaf
  rw [translate__of_leaf L vm va pm r w x pa0 ii pte log hw]
  have hc : leafChecks L vm va pm r w x ii pte = none := by
    unfold leafChecks
    rcases hgate with ⟨hp, hu⟩ | ⟨hp, hu, hs⟩
    · simp [hp, hu]
    · simp [hp, hu, hs]
  rw [hc]

/-- Scenario 3 of the specification: a supervisor access to the user page of
scenario 2 with `supervisorOk = false` fails. -/
theorem user_supervisor_gating_witness :
    leafReached Sv39Layout
        (sv39Vm (unscaledTables (ptePointer 0x102) (pteWord 0x55555 0x53)) false) 0x201abc =
        some (0, pteWord 0x55555 0x53) ∧
      (Sv39Layout.user (pteWord 0x55555 0x53) = true ∧
        (sv39Vm (unscaledTables (ptePointer 0x102) (pteWord 0x55555 0x53)) false).supervisorOk =
          false) ∧
      (translate_ Sv39Layout
        (sv39Vm (unscaledTables (ptePointer 0x102) (pteWord 0x55555 0x53)) false)
        0x201abc PrivilegeMode.Supervisor true false false 0).ok = false :=
  ⟨by decide, by decide,
    user_supervisor_gating Sv39Layout
      (sv39Vm (unscaledTables (ptePointer 0x102) (pteWord 0x55555 0x53)) false)
      0x201abc PrivilegeMode.Supervisor true false false 0 0 (pteWord 0x55555 0x53)
      (by decide) (Or.inr ⟨rfl, by decide, rfl⟩)⟩

/-! ## C9: fault kinds -/

/-- C9, as stated, fails: a walk whose first read fails and a walk whose
first read returns an invalid entry (`V = 0`) end with the same flag and the
same `pa`; nothing in the result of `translate` tells them apart. -/
theorem fault_kinds_same_result :
    (translate (sv39Vm busFaultMemory false) 0x201abc PrivilegeMode.User true false false 7).fetches
        = [⟨2, 0x100, none⟩] ∧
      (translate (sv39Vm (tableMemory []) false) 0x201abc PrivilegeMode.User true false false
        7).fetches = [⟨2, 0x100, some 0⟩] ∧
      Sv39Layout.valid 0 = false ∧
      (translate (sv39Vm busFaultMemory false) 0x201abc PrivilegeMode.User true false false 7).ok =
        (translate (sv39Vm (tableMemory []) false) 0x201abc PrivilegeMode.User true false false
          7).ok ∧
      (translate (sv39Vm busFaultMemory false) 0x201abc PrivilegeMode.User true false false 7).pa =
        (translate (sv39Vm (tableMemory []) false) 0x201abc PrivilegeMode.User true false false
          7).pa := by
  decide

/-- C9, amended. `translate` returns a flag only: any two failed calls
entered with the same `pa`, whatever made each of them fail (a failed read of
an entry, or an invalid, forbidden, misaligned or not-accessed/dirty entry),
end with the same flag `false` and the same, unchanged `pa`. -/
theorem failed_walks_same_result (vm vm' : VirtMem) (va va' : Nat) (pm pm' : PrivilegeMode)
    (r w x r' w' x' : Bool) (pa0 : Nat)
    (h : (translate vm va pm r w x pa0).ok = false)
    (h' : (translate vm' va' pm' r' w' x' pa0).ok = false) :
    (translate vm va pm r w x pa0).ok = (translate vm' va' pm' r' w' x' pa0).ok ∧
      (translate vm va pm r w x pa0).pa = pa0 ∧
      (translate vm' va' pm' r' w' x' pa0).pa = pa0 := by
  refine ⟨by rw [h, h'], ?_, ?_⟩
  · exact translate_pa_of_not_ok vm va pm r w x pa0 h
  · exact translate_pa_of_not_ok vm' va' pm' r' w' x' pa0 h'

/-- A bus fault on the root table and a supervisor access to a user page: the
two failed calls give the same result. -/
theorem failed_walks_same_result_witness :
    (translate (sv39Vm busFaultMemory false) 0x201abc PrivilegeMode.User true false false 7).ok =
        false ∧
      (translate (sv39Vm (unscaledTables (ptePointer 0x102) (pteWord 0x55555 0x53)) false)
        0x201abc PrivilegeMode.Supervisor true false false 7).ok = false ∧
      ((translate (sv39Vm busFaultMemory false) 0x201abc PrivilegeMode.User true false false
          7).ok =
        (translate (sv39Vm (unscaledTables (ptePointer 0x102) (pteWord 0x55555 0x53)) false)
          0x201abc PrivilegeMode.Supervisor true false false 7).ok ∧
      (translate (sv39Vm busFaultMemory false) 0x201abc PrivilegeMode.User true false false
          7).pa = 7 ∧
      (translate (sv39Vm (unscaledTables (ptePointer 0x102) (pteWord 0x55555 0x53)) false)
          0x201abc PrivilegeMode.Supervisor true false false 7).pa = 7) :=
  ⟨by decide, by decide,
    failed_walks_same_result (sv39Vm busFaultMemory false)
      (sv39Vm (unscaledTables (ptePointer 0x102) (pteWord 0x55555 0x53)) false)
      0x201abc 0x201abc PrivilegeMode.User PrivilegeMode.Supervisor true false false
      true false false 7 (by decide) (by decide)⟩

/-! ## C6: composition of the physical address -/

/-- C2, the code at the Sv39 scenario. With `pageTableRoot = 0x100`,
`pageSize = 4096` and pointer entries whose PPN is `0x101` and `0x102`, the
walker reads at `0x100`, `0x109` and `0x10a`: the table base is the page
number itself, `root + vpn * 8`, and not `root * pageSize + vpn * 8`, which
would be `0x100000`, `0x101008` and `0x102008`. -/
theorem pte_address_not_scaled :
    (translate (sv39Vm (unscaledTables (ptePointer 0x102) (pteWord 0x55555 0x53)) false)
        0x201abc PrivilegeMode.User true false false 0).fetches =
        [⟨2, 0x100, some (ptePointer 0x101)⟩, ⟨1, 0x109, some (ptePointer 0x102)⟩,
          ⟨0, 0x10a, some (pteWord 0x55555 0x53)⟩] ∧
      (sv39Vm (unscaledTables (ptePointer 0x102) (pteWord 0x55555 0x53)) false).pageSize = 4096 ∧
      Sv39Layout.ppn (ptePointer 0x101) = 0x101 ∧ Sv39Layout.ppn (ptePointer 0x102) = 0x102 ∧
      Sv39Layout.vpn 0x201abc 2 = 0 ∧ Sv39Layout.vpn 0x201abc 1 = 1 ∧
      Sv39Layout.vpn 0x201abc 0 = 1 ∧
      0x100 ≠ 0x100 * 4096 + 0 * Sv39Layout.size ∧
      0x109 ≠ 0x101 * 4096 + 1 * Sv39Layout.size ∧
      0x10a ≠ 0x102 * 4096 + 1 * Sv39Layout.size := by
  decide

/-- C3, the code at the Sv39 scenario. The memory holds the three tables at
`PPN * pageSize` (root at `0x100 * 4096`, chain `0x101`, `0x102`, leaf with
PPN `0x55555` and `V = R = U = A = 1`), yet the user read of
`va = 0x201abc` fails: the walker reads address `0x100`, finds zero there,
and never reaches the tables. -/
theorem round_trip_scenario_fails :
    scaledTables (0x100 * 4096 + Sv39Layout.vpn 0x201abc 2 * 8) = some (ptePointer 0x101) ∧
      scaledTables (0x101 * 4096 + Sv39Layout.vpn 0x201abc 1 * 8) = some (ptePointer 0x102) ∧
      scaledTables (0x102 * 4096 + Sv39Layout.vpn 0x201abc 0 * 8) =
        some (pteWord 0x55555 0x53) ∧
      Sv39Layout.ppn (ptePointer 0x101) = 0x101 ∧ Sv39Layout.ppn (ptePointer 0x102) = 0x102 ∧
      Sv39Layout.ppn (pteWord 0x55555 0x53) = 0x55555 ∧
      Sv39Layout.valid (pteWord 0x55555 0x53) = true ∧
      Sv39Layout.read (pteWord 0x55555 0x53) = true ∧
      Sv39Layout.user (pteWord 0x55555 0x53) = true ∧
      Sv39Layout.accessed (pteWord 0x55555 0x53) = true ∧
      0x201abc = (0x201 <<< 12) ||| 0xabc ∧
      translate (sv39Vm scaledTables false) 0x201abc PrivilegeMode.User true false false 0 =
        ⟨false, 0, [⟨2, 0x100, some 0⟩]⟩ := by
  decide

/-! ## C4: execute intent -/

/-- C4, the code at two leaves that differ only in `X`. The leaf with
`V = R = X = U = A = 1` translates for a read but is refused for an
instruction fetch; the leaf with `X = 0` is accepted for an instruction
fetch. Line 100 tests `exec and pte.exec()`. -/
theorem exec_check_inverted :
    Sv39Layout.exec (pteWord 0x55555 0x5b) = true ∧
      (translate (sv39Vm (unscaledTables (ptePointer 0x102) (pteWord 0x55555 0x5b)) false)
        0x201abc PrivilegeMode.User true false false 0).ok = true ∧
      (translate (sv39Vm (unscaledTables (ptePointer 0x102) (pteWord 0x55555 0x5b)) false)
        0x201abc PrivilegeMode.User false false true 0).ok = false ∧
      Sv39Layout.exec (pteWord 0x55555 0x53) = false ∧
      translate (sv39Vm (unscaledTables (ptePointer 0x102) (pteWord 0x55555 0x53)) false)
        0x201abc PrivilegeMode.User false false true 0 =
        ⟨true, 0x55555abc, [⟨2, 0x100, some (ptePointer 0x101)⟩,
          ⟨1, 0x109, some (ptePointer 0x102)⟩, ⟨0, 0x10a, some (pteWord 0x55555 0x53)⟩]⟩ := by
  decide

/-! ## C5: misaligned superpages -/

/-- C5, the code at two misaligned superpages. An Sv39 leaf at level 1 with
`ppn0 = 1` and `ppn1 = 0`, and an Sv48 leaf at level 3 with `ppn2 = 1`, are
both accepted: line 104 faults only when `ppn1` and `ppn0` are both
non-zero. -/
theorem misaligned_superpage_accepted :
    Sv39Layout.ppn0 (pteWord 1 0x53) = 1 ∧ Sv39Layout.ppn1 (pteWord 1 0x53) = 0 ∧
      leafReached Sv39Layout (sv39Vm (unscaledTables (pteWord 1 0x53) 0) false) 0x201abc =
        some (1, pteWord 1 0x53) ∧
      translate (sv39Vm (unscaledTables (pteWord 1 0x53) 0) false) 0x201abc
        PrivilegeMode.User true false false 0 =
        ⟨true, 0x1abc, [⟨2, 0x100, some (ptePointer 0x101)⟩,
          ⟨1, 0x109, some (pteWord 1 0x53)⟩]⟩ ∧
      Sv48Layout.ppnAt (pteWord (1 <<< 18) 0x53) 2 = 1 ∧
      leafReached Sv48Layout (sv48Vm (tableMemory [(0x100, pteWord (1 <<< 18) 0x53)]))
        0x201abc = some (3, pteWord (1 <<< 18) 0x53) ∧
      translate (sv48Vm (tableMemory [(0x100, pteWord (1 <<< 18) 0x53)])) 0x201abc
        PrivilegeMode.User true false false 0 =
        ⟨true, 0x201abc, [⟨3, 0x100, some (pteWord (1 <<< 18) 0x53)⟩]⟩ := by
  decide

/-! ## The leaf checks as one flag -/

theorem guard_chain (b1 b2 b3 b4 b5 : Bool) (v : Nat) :
    (if b1 then none else if b2 then none else if b3 then none else if b4 then none
      else if b5 then none else some v) =
      if (!b1 && !b2 && !b3 && !b4 && !b5) then some v else none := by
  cases b1 <;> cases b2 <;> cases b3 <;> cases b4 <;> cases b5 <;> rfl

theorem leafChecks_eq (L : Layout) (vm : VirtMem) (va : Nat) (pm : PrivilegeMode)
    (r w x : Bool) (ii pte : Nat) :
    leafChecks L vm va pm r w x ii pte =
      if leafOk L vm pm r w x ii pte then some (composePa L va pte ii) else none :=
  guard_chain _ _ _ _ _ _

/-- The flag and the address returned by `translate_` when the loop reached a
leaf. -/
theorem translate__ok_eq (L : Layout) (vm : VirtMem) (va : Nat) (pm : PrivilegeMode)
    (r w x : Bool) (pa0 ii pte : Nat) (hleaf : leafReached L vm va = some (ii, pte)) :
    (translate_ L vm va pm r w x pa0).ok = leafOk L vm pm r w x ii pte ∧
      ((translate_ L vm va pm r w x pa0).ok = true →
        (translate_ L vm va pm r w x pa0).pa = composePa L va pte ii) := by
  obtain ⟨log, hw⟩ := leafReached_eq_some L vm va ii pte hleaf
  rw [translate__of_leaf L vm va pm r w x pa0 ii pte log hw, leafChecks_eq]
  cases h : leafOk L vm pm r w x ii pte <;> simp

theorem translate__not_ok_of_no_leaf (L : Layout) (vm : VirtMem) (va : Nat) (pm : PrivilegeMode)
    (r w x : Bool) (pa0 : Nat) (hleaf : leafReached L vm va = none) :
    (translate_ L vm va pm r w x pa0).ok = false := by
  unfold leafReached at hleaf
  split at hleaf
  · next log hw => rw [translate__of_fault L vm va pm r w x pa0 log hw]
  · cases hleaf

/-- Every read of the log returned the word the memory holds at its address,
reduced to the width of an entry. -/
theorem walk_reads_memory (L : Layout) (mem : Memory) (va : Nat) :
    ∀ (ii root : Nat) (log : List Fetch),
      (∀ f ∈ log, f.data = (mem f.addr).map (fun w => w % 2 ^ L.dataBits)) →
      ∀ f ∈ (walk L mem va ii root log).fetches,
        f.data = (mem f.addr).map (fun w => w % 2 ^ L.dataBits) := by
  intro ii
  induction ii with
  | zero =>
    intro root log hlog
    rw [walk_unfold]
    cases hm : mem (pteAddr L va 0 root) with
    | none =>
      intro f hf
      simp only [Walk.fetches, List.mem_append, List.mem_singleton] at hf
      rcases hf with hf | rfl
      · exact hlog f hf
      · simp [hm]
    | some w =>
      have hnew : ∀ f ∈ log ++ [(⟨0, pteAddr L va 0 root, some (w % 2 ^ L.dataBits)⟩ : Fetch)],
          f.data = (mem f.addr).map (fun w => w % 2 ^ L.dataBits) := by
        intro f hf
        simp only [List.mem_append, List.mem_singleton] at hf
        rcases hf with hf | rfl
        · exact hlog f hf
        · simp [hm]
      simp only []
      split_ifs <;> exact hnew
  | succ k ih =>
    intro root log hlog
    rw [walk_unfold]
    cases hm : mem (pteAddr L va (k + 1) root) with
    | none =>
      intro f hf
      simp only [Walk.fetches, List.mem_append, List.mem_singleton] at hf
      rcases hf with hf | rfl
      · exact hlog f hf
      · simp [hm]
    | some w =>
      have hnew : ∀ f ∈ log ++
          [(⟨k + 1, pteAddr L va (k + 1) root, some (w % 2 ^ L.dataBits)⟩ : Fetch)],
          f.data = (mem f.addr).map (fun w => w % 2 ^ L.dataBits) := by
        intro f hf
        simp only [List.mem_append, List.mem_singleton] at hf
        rcases hf with hf | rfl
        · exact hlog f hf
        · simp [hm]
      simp only []
      split_ifs
      · exact hnew
      · exact ih _ _ hnew
      · exact hnew

/-! ## C11: read and write intent -/

/-- C11. In every instantiation of `translate_` (every paged mode) and for
every walk that reaches a leaf entry: a call with `read = true` fails unless
`effRead = R or (execReadable and X)` holds, a call with `write = true` fails
unless `W = 1`, and a read (`read` alone) of an execute-only leaf (`R = 0`,
`X = 1`) that passes the user/supervisor, superpage and accessed checks of
the code succeeds if and only if `execReadable` is set. -/
theorem read_write_intent_gating (L : Layout) (vm : VirtMem) (va : Nat) (pm : PrivilegeMode)
    (r w x : Bool) (pa0 ii pte : Nat) (hleaf : leafReached L vm va = some (ii, pte)) :
    (r = true → (L.read pte || (vm.execReadable && L.exec pte)) = false →
      (translate_ L vm va pm r w x pa0).ok = false) ∧
    (w = true → L.write pte = false → (translate_ L vm va pm r w x pa0).ok = false) ∧
    (L.read pte = false → L.exec pte = true →
      ¬ (pm = PrivilegeMode.User ∧ L.user pte = false) →
      ¬ (pm = PrivilegeMode.Supervisor ∧ L.user pte = true ∧ vm.supervisorOk = false) →
      ¬ (0 < ii ∧ L.ppn1 pte ≠ 0 ∧ L.ppn0 pte ≠ 0) →
      L.accessed pte = true →
      ((translate_ L vm va pm true false false pa0).ok = true ↔ vm.execReadable = true)) := by
  refine ⟨?_, ?_, ?_⟩
  · intro hr hp
    rw [(translate__ok_eq L vm va pm r w x pa0 ii pte hleaf).1]
    unfold leafOk
    rw [hr, hp]
    simp
  · intro hw hp
    rw [(translate__ok_eq L vm va pm r w x pa0 ii pte hleaf).1]
    unfold leafOk
    rw [hw, hp]
    simp
  · intro hr hx hu hs hsp ha
    rw [(translate__ok_eq L vm va pm true false false pa0 ii pte hleaf).1]
    unfold leafOk
    rw [hr, hx, ha]
    have h1 : (decide (pm = PrivilegeMode.User) && !L.user pte) = false := by
      cases hu' : L.user pte
      · have : pm ≠ PrivilegeMode.User := fun h => hu ⟨h, hu'⟩
        simp [this]
      · simp
    have h2 : (decide (pm = PrivilegeMode.Supervisor) && L.user pte && !vm.supervisorOk)
        = false := by
      cases hu' : L.user pte
      · simp
      · cases hs' : vm.supervisorOk
        · have : pm ≠ PrivilegeMode.Supervisor := fun h => hs ⟨h, hu', hs'⟩
          simp [this]
        · simp
    have h3 : (decide (ii > 0) && decide (L.ppn1 pte ≠ 0) && decide (L.ppn0 pte ≠ 0)) = false := by
      by_contra hc
      simp only [Bool.not_eq_false, Bool.and_eq_true, decide_eq_true_eq] at hc
      exact hsp ⟨hc.1.1, hc.1.2, hc.2⟩
    rw [h1, h2, h3]
    cases vm.execReadable <;> simp

/-! ## C12: accessed and dirty -/

/-- C12. In every instantiation of `translate_` (every paged mode) and for
every walk that reaches a leaf entry: the call fails if the entry has
`A = 0`, whatever the intent, and fails if `write = true` and the entry has
`D = 0`. The memory is an argument the walker only reads: every operation of
the log is a read that returned the word the memory holds, so no entry is
updated and nothing is written. -/
theorem accessed_dirty_fault_policy (L : Layout) (vm : VirtMem) (va : Nat) (pm : PrivilegeMode)
    (r w x : Bool) (pa0 ii pte : Nat) (hleaf : leafReached L vm va = some (ii, pte)) :
    (L.accessed pte = false → (translate_ L vm va pm r w x pa0).ok = false) ∧
    (w = true → L.dirty pte = false → (translate_ L vm va pm r w x pa0).ok = false) ∧
    (∀ f ∈ (translate_ L vm va pm r w x pa0).fetches,
      f.data = (vm.memory f.addr).map (fun word => word % 2 ^ L.dataBits)) := by
  refine ⟨?_, ?_, ?_⟩
  · intro ha
    rw [(translate__ok_eq L vm va pm r w x pa0 ii pte hleaf).1]
    unfold leafOk
    rw [ha]
    simp
  · intro hw hd
    rw [(translate__ok_eq L vm va pm r w x pa0 ii pte hleaf).1]
    unfold leafOk
    rw [hw, hd]
    simp
  · rw [translate__fetches]
    exact walk_reads_memory L vm.memory va _ _ [] (by simp)

/-! ## C14: no partial success -/

/-- C14. Whenever `translate` fails, in any mode, for any input and any
memory contents, `pa` is left exactly as it was before the call; the same
holds for every instantiation of `translate_`. -/
theorem no_partial_success (vm : VirtMem) (va : Nat) (pm : PrivilegeMode) (r w x : Bool)
    (pa0 : Nat) :
    ((translate vm va pm r w x pa0).ok = false → (translate vm va pm r w x pa0).pa = pa0) ∧
    ∀ L : Layout, (translate_ L vm va pm r w x pa0).ok = false →
      (translate_ L vm va pm r w x pa0).pa = pa0 :=
  ⟨translate_pa_of_not_ok vm va pm r w x pa0,
    fun L => translate__pa_of_not_ok L vm va pm r w x pa0⟩

/-! ## C17: several intents at once -/

theorem intents_union_bool :
    ∀ b1 b2 pr pw px b4 pa pd r w x : Bool, (r || w || x) = true →
      ((!b1 && !b2 && !((r && !pr) || (w && !pw) || (x && px)) && !b4 &&
          !(!pa || (w && !pd))) = true ↔
        (r = true → (!b1 && !b2 && !((true && !pr) || (false && !pw) || (false && px)) && !b4 &&
          !(!pa || (false && !pd))) = true) ∧
        (w = true → (!b1 && !b2 && !((false && !pr) || (true && !pw) || (false && px)) && !b4 &&
          !(!pa || (true && !pd))) = true) ∧
        (x = true → (!b1 && !b2 && !((false && !pr) || (false && !pw) || (true && px)) && !b4 &&
          !(!pa || (false && !pd))) = true)) := by
  decide

/-- C17. For a fixed translator, memory, `va` and privilege mode, and for
every non-empty set of the flags read/write/exec, `translate_` with that set
succeeds if and only if it succeeds for each flag of the set on its own, and
when it succeeds it returns the same `pa` as each of those single-intent
calls. -/
theorem intents_union (L : Layout) (vm : VirtMem) (va : Nat) (pm : PrivilegeMode)
    (r w x : Bool) (pa0 : Nat) (hne : r = true ∨ w = true ∨ x = true) :
    ((translate_ L vm va pm r w x pa0).ok = true ↔
      (r = true → (translate_ L vm va pm true false false pa0).ok = true) ∧
      (w = true → (translate_ L vm va pm false true false pa0).ok = true) ∧
      (x = true → (translate_ L vm va pm false false true pa0).ok = true)) ∧
    ((translate_ L vm va pm r w x pa0).ok = true →
      (r = true → (translate_ L vm va pm r w x pa0).pa =
        (translate_ L vm va pm true false false pa0).pa) ∧
      (w = true → (translate_ L vm va pm r w x pa0).pa =
        (translate_ L vm va pm false true false pa0).pa) ∧
      (x = true → (translate_ L vm va pm r w x pa0).pa =
        (translate_ L vm va pm false false true pa0).pa)) := by
  have hor : (r || w || x) = true := by
    rcases hne with h | h | h <;> simp [h]
  cases hleaf : leafReached L vm va with
  | none =>
    have hf := fun a b c => translate__not_ok_of_no_leaf L vm va pm a b c pa0 hleaf
    simp only [hf]
    refine ⟨?_, by simp⟩
    rcases hne with h | h | h <;> simp [h]
  | some p =>
    obtain ⟨ii, pte⟩ := p
    have hk := fun a b c => translate__ok_eq L vm va pm a b c pa0 ii pte hleaf
    have hiff := intents_union_bool
      (decide (pm = PrivilegeMode.User) && !L.user pte)
      (decide (pm = PrivilegeMode.Supervisor) && L.user pte && !vm.supervisorOk)
      (L.read pte || (vm.execReadable && L.exec pte)) (L.write pte) (L.exec pte)
      (decide (ii > 0) && decide (L.ppn1 pte ≠ 0) && decide (L.ppn0 pte ≠ 0))
      (L.accessed pte) (L.dirty pte) r w x hor
    have hiff2 : (translate_ L vm va pm r w x pa0).ok = true ↔
        (r = true → (translate_ L vm va pm true false false pa0).ok = true) ∧
        (w = true → (translate_ L vm va pm false true false pa0).ok = true) ∧
        (x = true → (translate_ L vm va pm false false true pa0).ok = true) := by
      rw [(hk r w x).1, (hk true false false).1, (hk false true false).1,
        (hk false false true).1]
      exact hiff
    refine ⟨hiff2, ?_⟩
    intro hok
    obtain ⟨h1, h2, h3⟩ := hiff2.1 hok
    refine ⟨fun hr => ?_, fun hw => ?_, fun hx => ?_⟩
    · rw [(hk r w x).2 hok, (hk true false false).2 (h1 hr)]
    · rw [(hk r w x).2 hok, (hk false true false).2 (h2 hw)]
    · rw [(hk r w x).2 hok, (hk false false true).2 (h3 hx)]

/-! ## C19: the configuration flags only grant access -/

/-- C19. For a fixed mode, root, memory, `va`, privilege mode and intents:
if `translate_` succeeds with `supervisorOk = false`, it succeeds with the
same `pa` and the same reads when `supervisorOk` is set to `true`; likewise
for `execReadable`. -/
theorem flags_only_grant (L : Layout) (vm : VirtMem) (va : Nat) (pm : PrivilegeMode)
    (r w x : Bool) (pa0 : Nat) :
    ((translate_ L (vm.setSupervisorOk false) va pm r w x pa0).ok = true →
      translate_ L (vm.setSupervisorOk true) va pm r w x pa0 =
        translate_ L (vm.setSupervisorOk false) va pm r w x pa0) ∧
    ((translate_ L (vm.setExecReadable false) va pm r w x pa0).ok = true →
      translate_ L (vm.setExecReadable true) va pm r w x pa0 =
        translate_ L (vm.setExecReadable false) va pm r w x pa0) := by
  constructor
  · intro hok
    unfold translate_ at hok ⊢
    simp only [VirtMem.setSupervisorOk] at hok ⊢
    cases hw : walk L vm.memory va (L.levels - 1) (vm.pageTableRoot % 2 ^ 64) [] with
    | fault log => rfl
    | leaf ii pte log =>
      rw [hw] at hok
      simp only [leafChecks_eq] at hok ⊢
      have hk : leafOk L ⟨vm.memory, vm.mode, vm.pageSize, vm.pageBits, vm.pageTableRoot, false,
          vm.execReadable⟩ pm r w x ii pte = true := by
        by_contra hc
        simp only [Bool.not_eq_true] at hc
        rw [hc] at hok
        exact absurd hok (by simp)
      have hk' : leafOk L ⟨vm.memory, vm.mode, vm.pageSize, vm.pageBits, vm.pageTableRoot, true,
          vm.execReadable⟩ pm r w x ii pte = true := by
        unfold leafOk at hk ⊢
        simp only [Bool.and_eq_true, Bool.not_eq_true'] at hk ⊢
        refine ⟨⟨⟨⟨hk.1.1.1.1, by simp⟩, hk.1.1.2⟩, hk.1.2⟩, hk.2⟩
      rw [hk, hk']
  · intro hok
    unfold translate_ at hok ⊢
    simp only [VirtMem.setExecReadable] at hok ⊢
    cases hw : walk L vm.memory va (L.levels - 1) (vm.pageTableRoot % 2 ^ 64) [] with
    | fault log => rfl
    | leaf ii pte log =>
      rw [hw] at hok
      simp only [leafChecks_eq] at hok ⊢
      have hk : leafOk L ⟨vm.memory, vm.mode, vm.pageSize, vm.pageBits, vm.pageTableRoot,
          vm.supervisorOk, false⟩ pm r w x ii pte = true := by
        by_contra hc
        simp only [Bool.not_eq_true] at hc
        rw [hc] at hok
        exact absurd hok (by simp)
      have hk' : leafOk L ⟨vm.memory, vm.mode, vm.pageSize, vm.pageBits, vm.pageTableRoot,
          vm.supervisorOk, true⟩ pm r w x ii pte = true := by
        unfold leafOk at hk ⊢
        simp only [Bool.and_eq_true, Bool.not_eq_true'] at hk ⊢
        refine ⟨⟨⟨⟨hk.1.1.1.1, hk.1.1.1.2⟩, ?_⟩, hk.1.2⟩, hk.2⟩
        have := hk.1.1.2
        revert this
        cases r <;> cases L.read pte <;> cases L.exec pte <;> cases w <;> cases L.write pte <;>
          cases x <;> simp
      rw [hk, hk']

/-! ## C15: the upper bits of the virtual address -/

/-- The loop looks at the virtual address through `va.vpn(i)` for the levels
it visits only. -/
theorem walk_congr_va (L : Layout) (mem : Memory) (va va' : Nat) :
    ∀ (ii root : Nat) (log : List Fetch), (∀ i ≤ ii, L.vpn va i = L.vpn va' i) →
      walk L mem va ii root log = walk L mem va' ii root log := by
  intro ii
  induction ii with
  | zero =>
    intro root log h
    rw [walk_unfold, walk_unfold L mem va']
    have ha : pteAddr L va 0 root = pteAddr L va' 0 root := by
      unfold pteAddr
      rw [h 0 (Nat.le_refl 0)]
    rw [ha]
  | succ k ih =>
    intro root log h
    rw [walk_unfold, walk_unfold L mem va']
    have ha : pteAddr L va (k + 1) root = pteAddr L va' (k + 1) root := by
      unfold pteAddr
      rw [h (k + 1) (Nat.le_refl _)]
    rw [ha]
    cases mem (pteAddr L va' (k + 1) root) with
    | none => rfl
    | some w =>
      simp only []
      split_ifs
      · rfl
      · exact ih _ _ (fun i hi => h i (Nat.le_succ_of_le hi))
      · rfl

/-- Step 9 looks at the virtual address through `va.offset()` and through
`va.vpn(i)` for the levels below the leaf only. -/
theorem composePa_congr_va (L : Layout) (va va' pte ii : Nat)
    (hoff : L.offset va = L.offset va') (h : ∀ i < ii, L.vpn va i = L.vpn va' i) :
    composePa L va pte ii = composePa L va' pte ii := by
  unfold composePa
  simp only []
  rw [hoff]
  congr 1
  split_ifs
  · apply List.foldl_ext
    intro a b hb
    have hb' := List.mem_range.1 (List.mem_reverse.1 hb)
    rw [h b hb']
  · rfl

/-- Two virtual addresses with the same offset and the same indices at every
level translate alike. -/
theorem translate__congr_va (L : Layout) (vm : VirtMem) (va va' : Nat) (pm : PrivilegeMode)
    (r w x : Bool) (pa0 : Nat) (hpos : 0 < L.levels)
    (hoff : L.offset va = L.offset va') (h : ∀ i < L.levels, L.vpn va i = L.vpn va' i) :
    translate_ L vm va pm r w x pa0 = translate_ L vm va' pm r w x pa0 := by
  have hw := walk_congr_va L vm.memory va va' (L.levels - 1) (vm.pageTableRoot % 2 ^ 64) []
    (fun i hi => h i (by omega))
  obtain ⟨ptrs, last, -, -, hlen, he⟩ :=
    walk_trace L vm.memory va' (L.levels - 1) (vm.pageTableRoot % 2 ^ 64) []
  unfold translate_
  rw [hw]
  cases hw' : walk L vm.memory va' (L.levels - 1) (vm.pageTableRoot % 2 ^ 64) [] with
  | fault log => rfl
  | leaf ii pte log =>
    rw [hw'] at he
    have hii : ii ≤ L.levels - 1 := by
      have := he.1
      omega
    simp only [leafChecks_eq]
    rw [composePa_congr_va L va va' pte ii hoff (fun i hi => h i (by omega))]

theorem field_mod (w lo n N : Nat) (h : lo + n ≤ N) :
    field (w % 2 ^ N) lo n = field w lo n := by
  unfold field
  rw [Nat.shiftRight_eq_div_pow, Nat.shiftRight_eq_div_pow]
  have hN : 2 ^ N = 2 ^ lo * 2 ^ (N - lo) := by
    rw [← Nat.pow_add]
    congr 1
    omega
  rw [hN, Nat.mod_mul_right_div_self]
  exact Nat.mod_mod_of_dvd _ (Nat.pow_dvd_pow 2 (by omega))

/-- What the missing check lets through, in general: in Sv32, Sv39 and Sv48
the bits of `va` above its 32, 39 or 48 significant bits never reach the
walker, so an address translates exactly as its low significant bits do,
sign-extended or not. -/
theorem upper_va_bits_ignored (vm : VirtMem) (va : Nat) (pm : PrivilegeMode)
    (r w x : Bool) (pa0 : Nat) (hm : vm.mode ≠ Mode.Bare) :
    translate vm va pm r w x pa0 = translate vm (va % 2 ^ vaBits vm.mode) pm r w x pa0 := by
  unfold translate
  cases hmode : vm.mode
  · exact absurd hmode hm
  · simp only [vaBits]
    apply translate__congr_va _ _ _ _ _ _ _ _ _ (by decide)
    · exact (field_mod va 0 12 _ (by decide)).symm
    · intro i hi
      simp only [Sv32Layout] at hi ⊢
      exact (field_mod va _ 10 _ (by omega)).symm
  · simp only [vaBits]
    apply translate__congr_va _ _ _ _ _ _ _ _ _ (by decide)
    · exact (field_mod va 0 12 _ (by decide)).symm
    · intro i hi
      simp only [Sv39Layout] at hi ⊢
      exact (field_mod va _ 9 _ (by omega)).symm
  · simp only [vaBits]
    apply translate__congr_va _ _ _ _ _ _ _ _ _ (by decide)
    · exact (field_mod va 0 12 _ (by decide)).symm
    · intro i hi
      simp only [Sv48Layout] at hi ⊢
      exact (field_mod va _ 9 _ (by omega)).symm

/-- C15, the code at an address that is not sign-extended. In Sv39 the
address `2^40 + 0x201abc` has bit 40 set and bit 38 clear, so its upper bits
are not the sign extension of bit 38; `translate_` has no check on the
address (line 48 reads `TBD check xlen against valen`), and the user read
succeeds with the physical address of `0x201abc`, over page tables whose
entries do not overlap. -/
theorem non_canonical_va_translates :
    2 ^ 40 + 0x201abc < 2 ^ 64 ∧
      (2 ^ 40 + 0x201abc).testBit 40 = true ∧ (2 ^ 40 + 0x201abc).testBit 38 = false ∧
      translate (sv39Vm (disjointTables (pteWord 0x55555 0x53)) false)
        (2 ^ 40 + 0x201abc) PrivilegeMode.User true false false 0 =
        ⟨true, 0x55555abc, [⟨2, 0x100, some (ptePointer 0x200)⟩,
          ⟨1, 0x208, some (ptePointer 0x300)⟩, ⟨0, 0x308, some (pteWord 0x55555 0x53)⟩]⟩ := by
  decide

/-! ## C16: depth bound -/

/-- The reads the loop adds to the log are issued at levels `ii`, `ii - 1`,
and so on, one level down at each read. -/
theorem walk_levels (L : Layout) (mem : Memory) (va : Nat) :
    ∀ (ii root : Nat) (log : List Fetch), ∃ new,
      (walk L mem va ii root log).fetches = log ++ new ∧
      ∀ (j : Nat) (f : Fetch), new[j]? = some f → f.level + j = ii := by
  intro ii
  induction ii with
  | zero =>
    intro root log
    rw [walk_unfold]
    have hone : ∀ d : Option Nat, ∀ (j : Nat) (f : Fetch),
        [(⟨0, pteAddr L va 0 root, d⟩ : Fetch)][j]? = some f → f.level + j = 0 := by
      intro d j f hj
      cases j with
      | zero => simp at hj; subst hj; rfl
      | succ j => simp at hj
    cases hm : mem (pteAddr L va 0 root) with
    | none => exact ⟨_, rfl, hone none⟩
    | some w =>
      simp only []
      split_ifs
      · exact ⟨_, rfl, hone _⟩
      · exact ⟨_, rfl, hone _⟩
      · exact ⟨_, rfl, hone _⟩
  | succ k ih =>
    intro root log
    rw [walk_unfold]
    have hone : ∀ d : Option Nat, ∀ (j : Nat) (f : Fetch),
        [(⟨k + 1, pteAddr L va (k + 1) root, d⟩ : Fetch)][j]? = some f →
          f.level + j = k + 1 := by
      intro d j f hj
      cases j with
      | zero => simp at hj; subst hj; rfl
      | succ j => simp at hj
    cases hm : mem (pteAddr L va (k + 1) root) with
    | none => exact ⟨_, rfl, hone none⟩
    | some w =>
      simp only []
      split_ifs
      · exact ⟨_, rfl, hone _⟩
      · obtain ⟨new, hf, hl⟩ := ih (L.ppn (w % 2 ^ L.dataBits) % 2 ^ 64)
          (log ++ [⟨k + 1, pteAddr L va (k + 1) root, some (w % 2 ^ L.dataBits)⟩])
        refine ⟨⟨k + 1, pteAddr L va (k + 1) root, some (w % 2 ^ L.dataBits)⟩ :: new, ?_, ?_⟩
        · rw [hf]; simp
        · intro j f hj
          cases j with
          | zero => simp at hj; subst hj; rfl
          | succ j =>
            simp only [List.getElem?_cons_succ] at hj
            have := hl j f hj
            omega
      · exact ⟨_, rfl, hone _⟩

/-- C16. `translate_` is a total function: the walk always terminates. In
every instantiation with at least one level (every paged mode), for every
`va` and every memory, the walk issues at least one and at most `levels`
reads, the `j`-th of them at level `levels - 1 - j`; and if every entry it
reads is a valid pointer (`V = 1`, `R = W = X = 0`), the call fails after
exactly `levels` reads. -/
theorem walk_depth_bound (L : Layout) (vm : VirtMem) (va : Nat) (pm : PrivilegeMode)
    (r w x : Bool) (pa0 : Nat) (hpos : 0 < L.levels) :
    0 < (translate_ L vm va pm r w x pa0).fetches.length ∧
    (translate_ L vm va pm r w x pa0).fetches.length ≤ L.levels ∧
    (∀ (j : Nat) (f : Fetch), (translate_ L vm va pm r w x pa0).fetches[j]? = some f →
      f.level + j = L.levels - 1) ∧
    ((∀ f ∈ (translate_ L vm va pm r w x pa0).fetches, ∃ pte, f.data = some pte ∧
        L.valid pte = true ∧ L.read pte = false ∧ L.write pte = false ∧ L.exec pte = false) →
      (translate_ L vm va pm r w x pa0).ok = false ∧
        (translate_ L vm va pm r w x pa0).fetches.length = L.levels) := by
  obtain ⟨ptrs, last, hfe, -, hlen, he⟩ :=
    walk_trace L vm.memory va (L.levels - 1) (vm.pageTableRoot % 2 ^ 64) []
  obtain ⟨new, hnew, hlv⟩ :=
    walk_levels L vm.memory va (L.levels - 1) (vm.pageTableRoot % 2 ^ 64) []
  rw [translate__fetches]
  refine ⟨?_, ?_, ?_, ?_⟩
  · rw [hfe]; simp
  · rw [hfe]
    simp only [List.nil_append, List.length_append, List.length_singleton]
    omega
  · intro j f hj
    rw [hnew, List.nil_append] at hj
    exact hlv j f hj
  · intro hall
    obtain ⟨pte, hd, hv, hr, hw, hx⟩ := hall last (by rw [hfe]; simp)
    cases hwalk : walk L vm.memory va (L.levels - 1) (vm.pageTableRoot % 2 ^ 64) [] with
    | fault log =>
      rw [hwalk] at he
      refine ⟨by rw [translate__of_fault L vm va pm r w x pa0 log hwalk], ?_⟩
      have h0 : last.level = 0 := by
        rcases he with he | ⟨p, hp, he⟩
        · rw [hd] at he; cases he
        · rw [hd] at hp
          cases hp
          rcases he with he | ⟨_, he⟩ | ⟨_, _, he⟩
          · rw [hv] at he; cases he
          · rw [hw] at he; cases he
          · exact he
      rw [← hwalk, hfe]
      simp only [List.nil_append, List.length_append, List.length_singleton]
      omega
    | leaf ii p log =>
      rw [hwalk] at he
      obtain ⟨-, hp, -, -, hrx⟩ := he
      rw [hd] at hp
      cases hp
      rcases hrx with h | h
      · rw [hr] at h; cases h
      · rw [hx] at h; cases h

/-! ## C18: the constructor -/

theorem log2Loop_spec : ∀ (fuel n : Nat), n ≤ fuel → n ≠ 0 →
    2 ^ log2Loop fuel n ≤ n ∧ n < 2 ^ (log2Loop fuel n + 1) := by
  intro fuel
  induction fuel with
  | zero => intro n h h0; omega
  | succ k ih =>
    intro n h h0
    unfold log2Loop
    split_ifs with h2
    · obtain ⟨h3, h4⟩ := ih (n / 2) (by omega) (by omega)
      constructor
      · rw [Nat.pow_succ]
        calc 2 ^ log2Loop k (n / 2) * 2 ≤ n / 2 * 2 := Nat.mul_le_mul_right 2 h3
          _ ≤ n := Nat.div_mul_le_self n 2
      · rw [Nat.pow_succ]
        omega
    · simp only [Nat.pow_zero, Nat.zero_add, Nat.pow_one]
      omega

theorem log2Floor_two_pow (k : Nat) : log2Floor (2 ^ k) = k := by
  have hpos : 2 ^ k ≠ 0 := Nat.pos_iff_ne_zero.1 (Nat.two_pow_pos k)
  obtain ⟨h1, h2⟩ := log2Loop_spec (2 ^ k) (2 ^ k) (Nat.le_refl _) hpos
  unfold log2Floor
  have ha : log2Loop (2 ^ k) (2 ^ k) ≤ k := (Nat.pow_le_pow_iff_right (by decide)).1 h1
  have hb : k < log2Loop (2 ^ k) (2 ^ k) + 1 := (Nat.pow_lt_pow_iff_right (by decide)).1 h2
  omega

/-- C18. For an `unsigned` page size, the two assertions of the constructor
hold exactly when `pageSize` is a power of two and at least 2048; the
translator then built has `2 ^ pageBits = pageSize`, that is
`pageBits = log2(pageSize)`, and starts in mode `Sv32`. -/
theorem constructor_invariant (memory : Memory) (pageSize pageTableRoot : Nat)
    (supervisorOk execReadable : Bool) (hps : pageSize < 2 ^ 32) :
    ((VirtMem.construct memory pageSize pageTableRoot supervisorOk execReadable).isSome = true ↔
      (∃ k, pageSize = 2 ^ k) ∧ 2048 ≤ pageSize) ∧
    ∀ vm, VirtMem.construct memory pageSize pageTableRoot supervisorOk execReadable = some vm →
      vm.pageSize = pageSize ∧ 2 ^ vm.pageBits = vm.pageSize ∧
        vm.pageBits = Nat.log2 pageSize ∧ vm.mode = Mode.Sv32 := by
  have hcases : ∀ k, pageSize = 2 ^ k →
      (1 <<< (log2Floor pageSize % 2 ^ 32)) % 2 ^ 32 = pageSize ∧
        log2Floor pageSize % 2 ^ 32 = k := by
    intro k hk
    have hk32 : k < 32 := by
      rw [hk] at hps
      exact (Nat.pow_lt_pow_iff_right (by decide)).1 hps
    have hb : log2Floor pageSize % 2 ^ 32 = k := by
      rw [hk, log2Floor_two_pow]
      exact Nat.mod_eq_of_lt (lt_trans hk32 (by decide))
    refine ⟨?_, hb⟩
    rw [hb, Nat.shiftLeft_eq, Nat.one_mul, ← hk]
    exact Nat.mod_eq_of_lt hps
  have hpow : (1 <<< (log2Floor pageSize % 2 ^ 32)) % 2 ^ 32 = pageSize →
      ∃ k, pageSize = 2 ^ k ∧ k < 32 := by
    intro h
    by_cases hlt : log2Floor pageSize % 2 ^ 32 < 32
    · refine ⟨log2Floor pageSize % 2 ^ 32, ?_, hlt⟩
      rw [Nat.shiftLeft_eq, Nat.one_mul,
        Nat.mod_eq_of_lt (Nat.pow_lt_pow_right (by decide) hlt)] at h
      exact h.symm
    · exfalso
      have h0 : pageSize ≠ 0 := by
        intro h0
        rw [h0] at hlt
        exact hlt (by decide)
      have hle := (log2Loop_spec pageSize pageSize (Nat.le_refl _) h0).1
      have hlog : log2Floor pageSize < 32 := by
        have : 2 ^ log2Floor pageSize < 2 ^ 32 := lt_of_le_of_lt hle hps
        exact (Nat.pow_lt_pow_iff_right (by decide)).1 this
      exact hlt (lt_of_le_of_lt (Nat.mod_le _ _) hlog)
  constructor
  · unfold VirtMem.construct
    simp only []
    constructor
    · intro h
      split_ifs at h with h1 h2
      · obtain ⟨k, hk, -⟩ := hpow h1
        refine ⟨⟨k, hk⟩, ?_⟩
        have h10 : (2 : Nat) ^ 10 < 2 ^ k := by
          rw [← hk]
          exact h2
        have hk11 : 10 < k := (Nat.pow_lt_pow_iff_right (by decide)).1 h10
        have h11 : (2 : Nat) ^ 11 ≤ 2 ^ k := Nat.pow_le_pow_right (by decide) hk11
        rw [hk]
        exact h11
      · simp at h
      · simp at h
    · rintro ⟨⟨k, hk⟩, hge⟩
      rw [if_pos (hcases k hk).1, if_pos (by omega)]
      rfl
  · intro vm hvm
    unfold VirtMem.construct at hvm
    simp only [] at hvm
    split_ifs at hvm with h1 h2
    obtain ⟨k, hk, -⟩ := hpow h1
    have hb := (hcases k hk).2
    simp only [Option.some.injEq] at hvm
    subst hvm
    refine ⟨rfl, ?_, ?_, rfl⟩
    · show 2 ^ (log2Floor pageSize % 2 ^ 32) = pageSize
      rw [hb, hk]
    · show log2Floor pageSize % 2 ^ 32 = Nat.log2 pageSize
      rw [hb, hk, Nat.log2_two_pow]

/-! ## C20: machine mode -/

/-- Step 9 looks at the leaf entry through its PPN slices only. -/
theorem composePa_congr_pte (L : Layout) (va p q ii : Nat)
    (h : ∀ i < L.levels, L.ppnAt p i = L.ppnAt q i) :
    composePa L va p ii = composePa L va q ii := by
  unfold composePa
  simp only []
  apply List.foldl_ext
  intro a b hb
  have hb' := List.mem_range'_1.1 (List.mem_reverse.1 hb)
  rw [h b (by omega)]

/-- In machine mode the leaf checks do not look at the `U` bit. -/
theorem leafOk_machine_congr (L : Layout) (vm : VirtMem) (r w x : Bool) (ii p q : Nat)
    (h : SameButUser L p q) :
    leafOk L vm PrivilegeMode.Machine r w x ii p =
      leafOk L vm PrivilegeMode.Machine r w x ii q := by
  obtain ⟨-, hr, hw, hx, ha, hd, h0, h1, -⟩ := h
  unfold leafOk
  rw [hr, hw, hx, ha, hd, h0, h1]
  simp

/-- Replacing the word of the leaf by one with the same `V`, `R`, `W` and `X`
bits leaves the path of the walk unchanged: the loop stops at the same level,
on the new word. -/
theorem walk_update_leaf (L : Layout) (mem : Memory) (va a word pte : Nat)
    (hmem : (mem a).map (fun w => w % 2 ^ L.dataBits) = some pte)
    (hleafy : L.read pte = true ∨ L.exec pte = true)
    (hv : L.valid pte = L.valid (word % 2 ^ L.dataBits))
    (hr : L.read pte = L.read (word % 2 ^ L.dataBits))
    (hw : L.write pte = L.write (word % 2 ^ L.dataBits))
    (hx : L.exec pte = L.exec (word % 2 ^ L.dataBits)) :
    ∀ (ii root : Nat) (log : List Fetch) (i : Nat) (log1 : List Fetch),
      walk L mem va ii root log = Walk.leaf i pte log1 →
      log1.getLast? = some ⟨i, a, some pte⟩ →
      ∃ log2, walk L (fun b => if b = a then some word else mem b) va ii root log =
        Walk.leaf i (word % 2 ^ L.dataBits) log2 := by
  intro ii
  induction ii with
  | zero =>
    intro root log i log1 hwalk hlast
    rw [walk_unfold] at hwalk
    rw [walk_unfold]
    cases hm : mem (pteAddr L va 0 root) with
    | none => rw [hm] at hwalk; cases hwalk
    | some w0 =>
      rw [hm] at hwalk
      simp only [] at hwalk
      split_ifs at hwalk with h1 h2
      simp only [Walk.leaf.injEq] at hwalk
      obtain ⟨rfl, rfl, rfl⟩ := hwalk
      rw [List.getLast?_concat] at hlast
      simp only [Option.some.injEq, Fetch.mk.injEq, true_and, and_true] at hlast
      rw [hlast, if_pos rfl]
      simp only []
      rw [← hv, ← hr, ← hw, ← hx, if_neg h1, if_neg h2]
      exact ⟨_, rfl⟩
  | succ k ih =>
    intro root log i log1 hwalk hlast
    rw [walk_unfold] at hwalk
    rw [walk_unfold]
    cases hm : mem (pteAddr L va (k + 1) root) with
    | none => rw [hm] at hwalk; cases hwalk
    | some w0 =>
      rw [hm] at hwalk
      simp only [] at hwalk
      split_ifs at hwalk with h1 h2
      · have hne : pteAddr L va (k + 1) root ≠ a := by
          intro hc
          rw [hc] at hm
          rw [hm] at hmem
          simp only [Option.map_some', Option.some.injEq] at hmem
          rw [hmem] at h2
          rcases hleafy with h | h <;> rw [h] at h2 <;> simp at h2
        rw [if_neg hne]
        simp only []
        rw [if_neg h1, if_pos h2]
        exact ih _ _ i log1 hwalk hlast
      · simp only [Walk.leaf.injEq] at hwalk
        obtain ⟨rfl, rfl, rfl⟩ := hwalk
        rw [List.getLast?_concat] at hlast
        simp only [Option.some.injEq, Fetch.mk.injEq, true_and, and_true] at hlast
        rw [hlast, if_pos rfl]
        simp only []
        rw [← hv, ← hr, ← hw, ← hx, if_neg h1, if_neg h2]
        exact ⟨_, rfl⟩

/-- C20. In every instantiation of `translate_` (every paged mode) and for
`priv = Machine`: the outcome does not depend on `supervisorOk`; and when
the walk reaches a leaf, read at address `a`, a run over the memory in which
the word at `a` is replaced by one that differs from the leaf in its `U` bit
only returns the same flag and the same `pa`. -/
theorem machine_exempt_from_user_gating (L : Layout) (vm : VirtMem) (va : Nat)
    (r w x : Bool) (pa0 : Nat) :
    (∀ flag : Bool, translate_ L (vm.setSupervisorOk flag) va PrivilegeMode.Machine r w x pa0 =
      translate_ L vm va PrivilegeMode.Machine r w x pa0) ∧
    (∀ ii a pte word : Nat, leafReached L vm va = some (ii, pte) →
      (translate_ L vm va PrivilegeMode.Machine r w x pa0).fetches.getLast? =
        some ⟨ii, a, some pte⟩ →
      SameButUser L pte (word % 2 ^ L.dataBits) →
      (translate_ L (vm.withWord a word) va PrivilegeMode.Machine r w x pa0).ok =
          (translate_ L vm va PrivilegeMode.Machine r w x pa0).ok ∧
        (translate_ L (vm.withWord a word) va PrivilegeMode.Machine r w x pa0).pa =
          (translate_ L vm va PrivilegeMode.Machine r w x pa0).pa) := by
  constructor
  · intro flag
    unfold translate_
    simp only [VirtMem.setSupervisorOk]
    cases hw : walk L vm.memory va (L.levels - 1) (vm.pageTableRoot % 2 ^ 64) [] with
    | fault log => rfl
    | leaf ii pte log =>
      simp only [leafChecks_eq]
      have : leafOk L ⟨vm.memory, vm.mode, vm.pageSize, vm.pageBits, vm.pageTableRoot, flag,
          vm.execReadable⟩ PrivilegeMode.Machine r w x ii pte =
          leafOk L vm PrivilegeMode.Machine r w x ii pte := by
        unfold leafOk
        simp
      rw [this]
  · intro ii a pte word hleaf hlast hsame
    obtain ⟨log, hwalk⟩ := leafReached_eq_some L vm va ii pte hleaf
    obtain ⟨ptrs, last, hfe, -, -, he⟩ :=
      walk_trace L vm.memory va (L.levels - 1) (vm.pageTableRoot % 2 ^ 64) []
    rw [translate__fetches, hwalk] at hlast
    simp only [Walk.fetches] at hlast
    have hmem : (vm.memory a).map (fun w => w % 2 ^ L.dataBits) = some pte := by
      have hin : (⟨ii, a, some pte⟩ : Fetch) ∈
          (walk L vm.memory va (L.levels - 1) (vm.pageTableRoot % 2 ^ 64) []).fetches := by
        rw [hwalk]
        exact List.mem_of_getLast?_eq_some hlast
      exact (walk_reads_memory L vm.memory va _ _ [] (by simp) _ hin).symm
    rw [hwalk] at he
    obtain ⟨-, -, -, -, hleafy⟩ := he
    obtain ⟨log2, hwalk2⟩ := walk_update_leaf L vm.memory va a word pte hmem hleafy
      hsame.1 hsame.2.1 hsame.2.2.1 hsame.2.2.2.1 _ _ [] ii log hwalk hlast
    have hleaf2 : leafReached L (vm.withWord a word) va = some (ii, word % 2 ^ L.dataBits) := by
      unfold leafReached
      simp only [VirtMem.withWord]
      rw [hwalk2]
    have e1 := translate__ok_eq L vm va PrivilegeMode.Machine r w x pa0 ii pte hleaf
    have e2 := translate__ok_eq L (vm.withWord a word) va PrivilegeMode.Machine r w x pa0 ii
      (word % 2 ^ L.dataBits) hleaf2
    have hok : leafOk L (vm.withWord a word) PrivilegeMode.Machine r w x ii
        (word % 2 ^ L.dataBits) = leafOk L vm PrivilegeMode.Machine r w x ii pte := by
      rw [← leafOk_machine_congr L (vm.withWord a word) r w x ii pte _ hsame]
      rfl
    have hokeq : (translate_ L (vm.withWord a word) va PrivilegeMode.Machine r w x pa0).ok =
        (translate_ L vm va PrivilegeMode.Machine r w x pa0).ok := by
      rw [e1.1, e2.1, hok]
    refine ⟨hokeq, ?_⟩
    cases hb : (translate_ L vm va PrivilegeMode.Machine r w x pa0).ok with
    | false =>
      rw [translate__pa_of_not_ok L vm va PrivilegeMode.Machine r w x pa0 hb]
      exact translate__pa_of_not_ok L _ va PrivilegeMode.Machine r w x pa0 (by rw [hokeq, hb])
    | true =>
      rw [e1.2 hb, e2.2 (by rw [hokeq, hb])]
      exact (composePa_congr_pte L va pte _ ii hsame.2.2.2.2.2.2.2.2).symm

/-! ## C13: a fully permissive user leaf -/

/-- C13, the code at a leaf with `V = R = W = X = U = A = D = 1`. For
`priv = User` the read and the write succeed with `pa = 0x55555abc`, which
agrees with `va = 0x201abc` on the low 12 bits, but the instruction fetch is
refused: line 100 faults when `exec` is set and the entry has `X = 1`. -/
theorem permissive_leaf_exec_refused :
    translate (sv39Vm (unscaledTables (ptePointer 0x102) (pteWord 0x55555 0xdf)) false)
        0x201abc PrivilegeMode.User true false false 0 =
        ⟨true, 0x55555abc, [⟨2, 0x100, some (ptePointer 0x101)⟩,
          ⟨1, 0x109, some (ptePointer 0x102)⟩, ⟨0, 0x10a, some (pteWord 0x55555 0xdf)⟩]⟩ ∧
      translate (sv39Vm (unscaledTables (ptePointer 0x102) (pteWord 0x55555 0xdf)) false)
        0x201abc PrivilegeMode.User false true false 0 =
        ⟨true, 0x55555abc, [⟨2, 0x100, some (ptePointer 0x101)⟩,
          ⟨1, 0x109, some (ptePointer 0x102)⟩, ⟨0, 0x10a, some (pteWord 0x55555 0xdf)⟩]⟩ ∧
      0x55555abc % 2 ^ 12 = 0x201abc % 2 ^ 12 ∧
      leafReached Sv39Layout
        (sv39Vm (unscaledTables (ptePointer 0x102) (pteWord 0x55555 0xdf)) false) 0x201abc =
        some (0, pteWord 0x55555 0xdf) ∧
      Sv39Layout.exec (pteWord 0x55555 0xdf) = true ∧
      translate (sv39Vm (unscaledTables (ptePointer 0x102) (pteWord 0x55555 0xdf)) false)
        0x201abc PrivilegeMode.User false false true 0 =
        ⟨false, 0, [⟨2, 0x100, some (ptePointer 0x101)⟩,
          ⟨1, 0x109, some (ptePointer 0x102)⟩, ⟨0, 0x10a, some (pteWord 0x55555 0xdf)⟩]⟩ := by
  decide

/-! ## Witnesses -/

/-- An execute-only user leaf (`V = X = U = A = 1`): a read fails with
`execReadable` off and succeeds with it on. -/
theorem read_write_intent_gating_witness :
    leafReached Sv39Layout
        (sv39Vm (unscaledTables (ptePointer 0x102) (pteWord 0x55555 0x59)) false) 0x201abc =
        some (0, pteWord 0x55555 0x59) ∧
      (translate_ Sv39Layout
        (sv39Vm (unscaledTables (ptePointer 0x102) (pteWord 0x55555 0x59)) false)
        0x201abc PrivilegeMode.User true false false 0).ok = false ∧
      (translate_ Sv39Layout
        (sv39Vm (unscaledTables (ptePointer 0x102) (pteWord 0x55555 0x59)) false)
        0x201abc PrivilegeMode.User false true false 0).ok = false ∧
      (translate_ Sv39Layout
        ((sv39Vm (unscaledTables (ptePointer 0x102) (pteWord 0x55555 0x59))
          false).setExecReadable true)
        0x201abc PrivilegeMode.User true false false 0).ok = true :=
  ⟨by decide,
    (read_write_intent_gating Sv39Layout
      (sv39Vm (unscaledTables (ptePointer 0x102) (pteWord 0x55555 0x59)) false)
      0x201abc PrivilegeMode.User true false false 0 0 (pteWord 0x55555 0x59)
      (by decide)).1 rfl (by decide),
    (read_write_intent_gating Sv39Layout
      (sv39Vm (unscaledTables (ptePointer 0x102) (pteWord 0x55555 0x59)) false)
      0x201abc PrivilegeMode.User false true false 0 0 (pteWord 0x55555 0x59)
      (by decide)).2.1 rfl (by decide),
    ((read_write_intent_gating Sv39Layout
      ((sv39Vm (unscaledTables (ptePointer 0x102) (pteWord 0x55555 0x59))
        false).setExecReadable true)
      0x201abc PrivilegeMode.User true false false 0 0 (pteWord 0x55555 0x59)
      (by decide)).2.2 (by decide) (by decide) (by decide) (by decide) (by decide)
      (by decide)).2 rfl⟩

/-- Scenario 6 of the specification: the leaf has `A = 0`, all else valid,
and a read fails; the three reads of the log return what the memory holds. -/
theorem accessed_dirty_fault_policy_witness :
    leafReached Sv39Layout
        (sv39Vm (unscaledTables (ptePointer 0x102) (pteWord 0x55555 0x13)) false) 0x201abc =
        some (0, pteWord 0x55555 0x13) ∧
      Sv39Layout.accessed (pteWord 0x55555 0x13) = false ∧
      (translate_ Sv39Layout
        (sv39Vm (unscaledTables (ptePointer 0x102) (pteWord 0x55555 0x13)) false)
        0x201abc PrivilegeMode.User true false false 0).ok = false ∧
      (⟨0, 0x10a, some (pteWord 0x55555 0x13)⟩ : Fetch).data =
        ((sv39Vm (unscaledTables (ptePointer 0x102) (pteWord 0x55555 0x13)) false).memory
          0x10a).map (fun word => word % 2 ^ Sv39Layout.dataBits) :=
  ⟨by decide, by decide,
    (accessed_dirty_fault_policy Sv39Layout
      (sv39Vm (unscaledTables (ptePointer 0x102) (pteWord 0x55555 0x13)) false)
      0x201abc PrivilegeMode.User true false false 0 0 (pteWord 0x55555 0x13)
      (by decide)).1 (by decide),
    (accessed_dirty_fault_policy Sv39Layout
      (sv39Vm (unscaledTables (ptePointer 0x102) (pteWord 0x55555 0x13)) false)
      0x201abc PrivilegeMode.User true false false 0 0 (pteWord 0x55555 0x13)
      (by decide)).2.2 ⟨0, 0x10a, some (pteWord 0x55555 0x13)⟩ (by decide)⟩

/-- A supervisor access to a user page fails and leaves `pa = 7` in place. -/
theorem no_partial_success_witness :
    (translate (sv39Vm (unscaledTables (ptePointer 0x102) (pteWord 0x55555 0x53)) false)
        0x201abc PrivilegeMode.Supervisor true false false 7).ok = false ∧
      (translate (sv39Vm (unscaledTables (ptePointer 0x102) (pteWord 0x55555 0x53)) false)
        0x201abc PrivilegeMode.Supervisor true false false 7).pa = 7 :=
  ⟨by decide,
    (no_partial_success
      (sv39Vm (unscaledTables (ptePointer 0x102) (pteWord 0x55555 0x53)) false)
      0x201abc PrivilegeMode.Supervisor true false false 7).1 (by decide)⟩

/-- Three pointer entries in a row in Sv39: the call fails after exactly
three reads, at levels 2, 1 and 0. -/
theorem walk_depth_bound_witness :
    0 < Sv39Layout.levels ∧
      (translate_ Sv39Layout
        (sv39Vm (unscaledTables (ptePointer 0x102) (ptePointer 0x103)) false)
        0x201abc PrivilegeMode.User true false false 0).fetches =
        [⟨2, 0x100, some (ptePointer 0x101)⟩, ⟨1, 0x109, some (ptePointer 0x102)⟩,
          ⟨0, 0x10a, some (ptePointer 0x103)⟩] ∧
      (translate_ Sv39Layout
        (sv39Vm (unscaledTables (ptePointer 0x102) (ptePointer 0x103)) false)
        0x201abc PrivilegeMode.User true false false 0).ok = false ∧
      (translate_ Sv39Layout
        (sv39Vm (unscaledTables (ptePointer 0x102) (ptePointer 0x103)) false)
        0x201abc PrivilegeMode.User true false false 0).fetches.length = Sv39Layout.levels :=
  ⟨by decide, by decide,
    (walk_depth_bound Sv39Layout
      (sv39Vm (unscaledTables (ptePointer 0x102) (ptePointer 0x103)) false)
      0x201abc PrivilegeMode.User true false false 0 (by decide)).2.2.2 (by decide)⟩

/-- A leaf with `V = R = W = U = A = D = 1`: the call with read and write
both set succeeds, as the read and the write on their own do, with the same
`pa`. -/
theorem intents_union_witness :
    (translate_ Sv39Layout
        (sv39Vm (unscaledTables (ptePointer 0x102) (pteWord 0x55555 0xd7)) false)
        0x201abc PrivilegeMode.User true true false 0).ok = true ∧
      (translate_ Sv39Layout
        (sv39Vm (unscaledTables (ptePointer 0x102) (pteWord 0x55555 0xd7)) false)
        0x201abc PrivilegeMode.User true false false 0).ok = true ∧
      (translate_ Sv39Layout
        (sv39Vm (unscaledTables (ptePointer 0x102) (pteWord 0x55555 0xd7)) false)
        0x201abc PrivilegeMode.User true true false 0).pa =
      (translate_ Sv39Layout
        (sv39Vm (unscaledTables (ptePointer 0x102) (pteWord 0x55555 0xd7)) false)
        0x201abc PrivilegeMode.User false true false 0).pa :=
  ⟨by decide,
    ((intents_union Sv39Layout
      (sv39Vm (unscaledTables (ptePointer 0x102) (pteWord 0x55555 0xd7)) false)
      0x201abc PrivilegeMode.User true true false 0 (Or.inl rfl)).1.1 (by decide)).1 rfl,
    ((intents_union Sv39Layout
      (sv39Vm (unscaledTables (ptePointer 0x102) (pteWord 0x55555 0xd7)) false)
      0x201abc PrivilegeMode.User true true false 0 (Or.inl rfl)).2 (by decide)).2.1 rfl⟩

/-- The page size of the scenarios, 4096: the assertions hold and
`pageBits = 12`; with 3000 the first assertion fails. -/
theorem constructor_invariant_witness :
    4096 < 2 ^ 32 ∧
      (VirtMem.construct busFaultMemory 4096 0 false false).isSome = true ∧
      (VirtMem.construct busFaultMemory 4096 0 false false).map VirtMem.pageBits = some 12 ∧
      (VirtMem.construct busFaultMemory 3000 0 false false).isSome = false ∧
      ((∃ k, 4096 = 2 ^ k) ∧ 2048 ≤ 4096) :=
  ⟨by decide, by decide, by decide, by decide,
    (constructor_invariant busFaultMemory 4096 0 false false (by decide)).1.1 (by decide)⟩

/-- The user read of scenario 2 succeeds with `supervisorOk` off, hence also
with it on; likewise for `execReadable`. -/
theorem flags_only_grant_witness :
    (translate_ Sv39Layout
        ((sv39Vm (unscaledTables (ptePointer 0x102) (pteWord 0x55555 0x53))
          false).setSupervisorOk false)
        0x201abc PrivilegeMode.User true false false 0).ok = true ∧
      translate_ Sv39Layout
        ((sv39Vm (unscaledTables (ptePointer 0x102) (pteWord 0x55555 0x53))
          false).setSupervisorOk true)
        0x201abc PrivilegeMode.User true false false 0 =
      translate_ Sv39Layout
        ((sv39Vm (unscaledTables (ptePointer 0x102) (pteWord 0x55555 0x53))
          false).setSupervisorOk false)
        0x201abc PrivilegeMode.User true false false 0 ∧
      translate_ Sv39Layout
        ((sv39Vm (unscaledTables (ptePointer 0x102) (pteWord 0x55555 0x53))
          false).setExecReadable true)
        0x201abc PrivilegeMode.User true false false 0 =
      translate_ Sv39Layout
        ((sv39Vm (unscaledTables (ptePointer 0x102) (pteWord 0x55555 0x53))
          false).setExecReadable false)
        0x201abc PrivilegeMode.User true false false 0 :=
  ⟨by decide,
    (flags_only_grant Sv39Layout
      (sv39Vm (unscaledTables (ptePointer 0x102) (pteWord 0x55555 0x53)) false)
      0x201abc PrivilegeMode.User true false false 0).1 (by decide),
    (flags_only_grant Sv39Layout
      (sv39Vm (unscaledTables (ptePointer 0x102) (pteWord 0x55555 0x53)) false)
      0x201abc PrivilegeMode.User true false false 0).2 (by decide)⟩

/-- In machine mode the leaf of scenario 2 translates alike with `U = 1`
(`0x53`) and with `U = 0` (`0x43`). -/
theorem machine_exempt_from_user_gating_witness :
    leafReached Sv39Layout
        (sv39Vm (unscaledTables (ptePointer 0x102) (pteWord 0x55555 0x53)) false) 0x201abc =
        some (0, pteWord 0x55555 0x53) ∧
      Sv39Layout.user (pteWord 0x55555 0x53) = true ∧
      Sv39Layout.user (pteWord 0x55555 0x43 % 2 ^ Sv39Layout.dataBits) = false ∧
      (translate_ Sv39Layout
        ((sv39Vm (unscaledTables (ptePointer 0x102) (pteWord 0x55555 0x53)) false).withWord
          0x10a (pteWord 0x55555 0x43))
        0x201abc PrivilegeMode.Machine true false false 0).ok =
      (translate_ Sv39Layout
        (sv39Vm (unscaledTables (ptePointer 0x102) (pteWord 0x55555 0x53)) false)
        0x201abc PrivilegeMode.Machine true false false 0).ok ∧
      (translate_ Sv39Layout
        ((sv39Vm (unscaledTables (ptePointer 0x102) (pteWord 0x55555 0x53)) false).withWord
          0x10a (pteWord 0x55555 0x43))
        0x201abc PrivilegeMode.Machine true false false 0).pa =
      (translate_ Sv39Layout
        (sv39Vm (unscaledTables (ptePointer 0x102) (pteWord 0x55555 0x53)) false)
        0x201abc PrivilegeMode.Machine true false false 0).pa :=
  ⟨by decide, by decide, by decide,
    (machine_exempt_from_user_gating Sv39Layout
      (sv39Vm (unscaledTables (ptePointer 0x102) (pteWord 0x55555 0x53)) false)
      0x201abc true false false 0).2 0 0x10a (pteWord 0x55555 0x53) (pteWord 0x55555 0x43)
      (by decide) (by decide) (by unfold SameButUser; decide)⟩

end WdRiscv
